import Mathlib

/-!
# ibledger.app — ledger engine, shallow embedding

This file embeds the ledger engine of the ibledger.app repository in Lean 4
and proves properties of it.  Amounts are modelled as rationals (the
database stores `double precision`; the code never rounds), timestamps as
integers, and row ids as naturals.  Each definition carries a comment naming
the source file (and revision, where the repository bundles several
revisions of one route) it was translated from.

Modelled routes:
* `GET/DELETE /api/wallets` and `GET/DELETE /api/funds` (src/app/api/wallets/route.ts,
  src/app/api/funds/route.ts);
* `GET /api/totals` (src/app/api/totals/route.ts);
* `POST /api/transactions` (the revision that stores `incomePull` snapshots
  and batch-inserts children);
* `PATCH /api/transactions/[id]` (src/app/api/transactions/[id]/route.ts,
  the revision with overdraft advance/repayment side-postings), and the
  earlier revision's income-edit and metadata-edit branches and `DELETE`
  handler (the revision that soft-deletes via `deletedAt` and wraps edits in
  `db.transaction`).

Omitted as irrelevant to every claim: authentication, JSON parsing,
pagination, `createdAt`/`updatedAt` bookkeeping.
-/

namespace ILedger

/-- `transactions.status` column (varchar, default `'posted'`). -/
inductive TxStatus where
  | posted
  | void
deriving DecidableEq

/-- `transactions.postingKind` column: `null` (here `normal`),
`'overdraft_advance'` or `'overdraft_repayment'`. -/
inductive PostingKind where
  | normal
  | overdraftAdvance
  | overdraftRepayment
deriving DecidableEq

/-- `funds.kind` column: `'regular'`, `'income'` or `'savings'`. -/
inductive FundKind where
  | regular
  | income
  | savings
deriving DecidableEq

/-- A row of the `wallets` table (src/db/schema.ts). -/
structure Wallet where
  id : Nat
  userId : Nat
  openingAmount : ℚ
  deletedAt : Option Int := none
deriving DecidableEq

/-- A row of the `funds` table.  The repository's revisions use two
generations of columns (`kind` before migration 0008, `isSavings` and
`pullPercentage` after); the row carries both so that each embedded route
can read the columns it actually uses. -/
structure Fund where
  id : Nat
  userId : Nat
  openingAmount : ℚ
  pullPercentage : ℚ := 0
  isSavings : Bool := false
  kind : FundKind := .regular
  deletedAt : Option Int := none
deriving DecidableEq

/-- A row of the `transactions` table (src/db/schema.ts): one posting, or a
parent event row (`isPosting = false`). -/
structure Posting where
  id : Nat
  userId : Nat
  parentId : Option Nat := none
  occurredAt : Int
  description : Option String := none
  isPosting : Bool := true
  isPending : Bool := true
  incomePull : Option ℚ := none
  fundId : Option Nat := none
  walletId : Option Nat := none
  amount : ℚ
  status : TxStatus := .posted
  postingKind : PostingKind := .normal
  deletedAt : Option Int := none
deriving DecidableEq

/-- One user's slice of the database.  `nextId` models the
`generatedAlwaysAsIdentity` id sequence of the `transactions` table. -/
structure Ledger where
  wallets : List Wallet
  funds : List Fund
  postings : List Posting
  nextId : Nat
deriving DecidableEq

/-- HTTP-level failure: 400-class vs 404-class, with the response message. -/
inductive ApiErr where
  | badRequest (msg : String)
  | notFound (msg : String)
deriving DecidableEq

/-- `SUM(transactions.amount)` over a list of rows. -/
def sumAmounts (ps : List Posting) : ℚ :=
  (ps.map (·.amount)).sum

/-- `SUM(CASE WHEN isPending = false THEN amount ELSE 0 END)`. -/
def sumCleared (ps : List Posting) : ℚ :=
  (ps.map fun p => if p.isPending then 0 else p.amount).sum

/-! ## Balance queries -/

/-- Join condition of `GET /api/wallets` (src/app/api/wallets/route.ts,
lines 39-47): user's postings attributed to the wallet, `isPosting = true`,
not soft-deleted.  The route has no `status` condition. -/
def walletGETJoin (uid wid : Nat) (p : Posting) : Bool :=
  p.userId == uid && p.walletId == some wid && p.isPosting && p.deletedAt == none

/-- Join condition of `GET /api/funds` (src/app/api/funds/route.ts,
lines 40-49): like the wallet join but additionally `status = 'posted'`. -/
def fundGETJoin (uid fid : Nat) (p : Posting) : Bool :=
  p.userId == uid && p.fundId == some fid && p.status == .posted &&
    p.isPosting && p.deletedAt == none

/-- Join condition of the fund aggregation in `GET /api/totals`
(src/app/api/totals/route.ts, lines 63-70): no `status` condition there. -/
def fundTotalsJoin (uid fid : Nat) (p : Posting) : Bool :=
  p.userId == uid && p.fundId == some fid && p.isPosting && p.deletedAt == none

/-- One row of a balance listing: the entity id with the cleared and
with-pending sums produced by the SQL aggregation. -/
structure BalanceRow where
  id : Nat
  openingAmount : ℚ
  balance : ℚ
  balanceWithPending : ℚ
deriving DecidableEq

/-- `GET /api/wallets`: for every active wallet of the user,
`balance = openingAmount + Σ cleared amounts` and
`balanceWithPending = openingAmount + Σ all amounts` over the join. -/
def walletsGET (l : Ledger) (uid : Nat) : List BalanceRow :=
  (l.wallets.filter fun w => w.userId == uid && w.deletedAt == none).map fun w =>
    let ps := l.postings.filter (walletGETJoin uid w.id)
    { id := w.id
      openingAmount := w.openingAmount
      balance := w.openingAmount + sumCleared ps
      balanceWithPending := w.openingAmount + sumAmounts ps }

/-- `GET /api/funds`: same aggregation over the fund join (which filters
`status = 'posted'`). -/
def fundsGET (l : Ledger) (uid : Nat) : List BalanceRow :=
  (l.funds.filter fun f => f.userId == uid && f.deletedAt == none).map fun f =>
    let ps := l.postings.filter (fundGETJoin uid f.id)
    { id := f.id
      openingAmount := f.openingAmount
      balance := f.openingAmount + sumCleared ps
      balanceWithPending := f.openingAmount + sumAmounts ps }

/-- `getFundBalanceAsOf` (src/app/api/transactions/[id]/route.ts, lines
31-71): opening amount plus the sum of the fund's posted, non-deleted
posting rows dated at or before `occurredAt`; `Fund not found` when the
fund is not an active fund of the user. -/
def getFundBalanceAsOf (l : Ledger) (uid fid : Nat) (occurredAt : Int) :
    Except String ℚ :=
  match l.funds.find? (fun f => f.id == fid && f.userId == uid && f.deletedAt == none) with
  | none => .error "Fund not found"
  | some f =>
      .ok (f.openingAmount + sumAmounts (l.postings.filter fun p =>
        p.userId == uid && p.fundId == some fid && p.status == .posted &&
          p.isPosting && p.deletedAt == none && decide (p.occurredAt ≤ occurredAt)))

/-- `getOverdraftDebtAsOf` (src/app/api/transactions/[id]/route.ts, lines
73-103): `max 0` of the sum of the fund's overdraft advance/repayment
postings dated at or before `occurredAt`. -/
def getOverdraftDebtAsOf (l : Ledger) (uid fid : Nat) (occurredAt : Int) : ℚ :=
  max 0 (sumAmounts (l.postings.filter fun p =>
    p.userId == uid && p.fundId == some fid && p.status == .posted &&
      p.isPosting && p.deletedAt == none && decide (p.occurredAt ≤ occurredAt) &&
      (p.postingKind == .overdraftAdvance || p.postingKind == .overdraftRepayment)))

/-! ## `GET /api/totals` — display transform -/

/-- One fund row of the totals response: raw sums plus the display-adjusted
balances (src/app/api/totals/route.ts, lines 81-111). -/
structure FundTotalRow where
  id : Nat
  isSavings : Bool
  rawBalance : ℚ
  rawBalanceWithPending : ℚ
  balance : ℚ
  balanceWithPending : ℚ
deriving DecidableEq

/-- Raw per-fund sums of `GET /api/totals` (display fields left equal to the
raw ones; the display transform is applied afterwards). -/
def fundTotalsRaw (l : Ledger) (uid : Nat) : List FundTotalRow :=
  (l.funds.filter fun f => f.userId == uid && f.deletedAt == none).map fun f =>
    let ps := l.postings.filter (fundTotalsJoin uid f.id)
    let b := f.openingAmount + sumCleared ps
    let bwp := f.openingAmount + sumAmounts ps
    { id := f.id, isSavings := f.isSavings
      rawBalance := b, rawBalanceWithPending := bwp
      balance := b, balanceWithPending := bwp }

/-- `deficitCleared` (src/app/api/totals/route.ts, lines 87-89): sum of
`max(0, -rawBalance)` over the non-savings funds. -/
def deficitCleared (rows : List FundTotalRow) : ℚ :=
  ((rows.filter fun f => !f.isSavings).map fun f => max 0 (-f.rawBalance)).sum

/-- `deficitWithPending` (lines 91-96). -/
def deficitWithPending (rows : List FundTotalRow) : ℚ :=
  ((rows.filter fun f => !f.isSavings).map fun f => max 0 (-f.rawBalanceWithPending)).sum

/-- `fundTotalsDisplay` (src/app/api/totals/route.ts, lines 98-111): the
savings fund absorbs the total deficit, every other fund is clamped at 0;
applied independently to the cleared and with-pending views, keeping the
raw fields. -/
def fundTotalsDisplay (l : Ledger) (uid : Nat) : List FundTotalRow :=
  let rows := fundTotalsRaw l uid
  let dC := deficitCleared rows
  let dWP := deficitWithPending rows
  rows.map fun f =>
    { f with
      balance := if f.isSavings then f.rawBalance - dC else max 0 f.rawBalance
      balanceWithPending :=
        if f.isSavings then f.rawBalanceWithPending - dWP
        else max 0 f.rawBalanceWithPending }

/-! ## Wallet / fund deletion -/

/-- With-pending wallet balance computed by `DELETE /api/wallets`
(src/app/api/wallets/route.ts, lines 213-240): opening amount plus the sum
over the wallet GET join. -/
def walletDeleteBalance (l : Ledger) (uid wid : Nat) (opening : ℚ) : ℚ :=
  opening + sumAmounts (l.postings.filter (walletGETJoin uid wid))

/-- With-pending fund balance computed by `DELETE /api/funds`
(src/app/api/funds/route.ts, lines 224-252): over the fund GET join
(`status = 'posted'` included). -/
def fundDeleteBalance (l : Ledger) (uid fid : Nat) (opening : ℚ) : ℚ :=
  opening + sumAmounts (l.postings.filter (fundGETJoin uid fid))

/-- The tolerance `1e-9` of the balance checks. -/
def balanceEps : ℚ := 1 / 1000000000

/-- `DELETE /api/wallets` (src/app/api/wallets/route.ts, lines 174-265):
404 when no active wallet matches, 400 `has balance` when the with-pending
balance exceeds `1e-9` in absolute value, otherwise soft-delete by setting
`deletedAt`. -/
def deleteWalletOp (l : Ledger) (uid wid : Nat) (now : Int) :
    Ledger × Except ApiErr Nat :=
  if wid == 0 then (l, .error (.badRequest "Missing wallet id"))
  else
    match l.wallets.find? (fun w => w.id == wid && w.userId == uid && w.deletedAt == none) with
    | none => (l, .error (.notFound "Wallet not found"))
    | some w =>
        let bal := walletDeleteBalance l uid wid w.openingAmount
        if balanceEps < |bal| then
          (l, .error (.badRequest "Wallet has a non-zero balance. Move the money to another wallet, then try again."))
        else
          ({ l with wallets := l.wallets.map fun w' =>
              if w'.id == wid then { w' with deletedAt := some now } else w' },
            .ok wid)

/-- `DELETE /api/funds` (src/app/api/funds/route.ts, lines 178-277): like
the wallet delete, but income/savings funds are protected and the balance
join filters `status = 'posted'`. -/
def deleteFundOp (l : Ledger) (uid fid : Nat) (now : Int) :
    Ledger × Except ApiErr Nat :=
  if fid == 0 then (l, .error (.badRequest "Missing fund id"))
  else
    match l.funds.find? (fun f => f.id == fid && f.userId == uid && f.deletedAt == none) with
    | none => (l, .error (.notFound "Fund not found"))
    | some f =>
        if f.kind == .income || f.kind == .savings then
          (l, .error (.badRequest "Cannot delete income or savings fund"))
        else
          let bal := fundDeleteBalance l uid fid f.openingAmount
          if balanceEps < |bal| then
            (l, .error (.badRequest "Fund has a non-zero balance. Move the money to another fund, then try again."))
          else
            ({ l with funds := l.funds.map fun f' =>
                if f'.id == fid then { f' with deletedAt := some now } else f' },
              .ok fid)

/-! ## `POST /api/transactions` — createEvent

Embeds the revision of the create route that stores `incomePull` snapshots
on allocation postings and batch-inserts children.  The handler issues its
INSERT statements one after another with no `db.transaction` wrapper, so the
embedding first produces the list of INSERT statements (each statement being
the list of rows it writes) and `createEvent` folds them over the ledger. -/

/-- One line of the request body's `lines` array, after JSON parsing. -/
structure LineInput where
  walletId : Option Nat := none
  fundId : Option Nat := none
  description : Option String := none
  amount : ℚ
  isPending : Option Bool := none
deriving DecidableEq

/-- The request body of the create route: `type = "income"` with a wallet
and a total amount, or the default expense shape with a `lines` array. -/
inductive CreateBody where
  | income (walletId : Nat) (amount : ℚ)
  | expense (lines : List LineInput)
deriving DecidableEq

/-- A create request: `occurredAt`, optional description, optional event
pending flag (absent means `true`), and the body. -/
structure CreateReq where
  occurredAt : Int
  description : Option String := none
  isPending : Option Bool := none
  body : CreateBody
deriving DecidableEq

/-- A request line after the route's validation loop. -/
structure ParsedLine where
  walletId : Option Nat
  fundId : Option Nat
  description : Option String
  amount : ℚ
  isPending : Bool
deriving DecidableEq

/-- Validation of one line: zero amount is rejected, and a line must carry
at least one of `walletId`/`fundId`; a line-level pending flag defaults to
the event's. -/
def parseLine (eventIsPending : Bool) (line : LineInput) : Except ApiErr ParsedLine :=
  if line.amount == 0 then .error (.badRequest "Invalid amount")
  else if line.walletId == none && line.fundId == none then
    .error (.badRequest "Line must include walletId or fundId")
  else
    .ok ⟨line.walletId, line.fundId, line.description, line.amount,
      line.isPending.getD eventIsPending⟩

def parseLines (eventIsPending : Bool) : List LineInput → Except ApiErr (List ParsedLine)
  | [] => .ok []
  | line :: rest =>
      match parseLine eventIsPending line with
      | .error e => .error e
      | .ok p =>
          match parseLines eventIsPending rest with
          | .error e => .error e
          | .ok ps => .ok (p :: ps)

/-- Wallet ownership check: an active wallet of the user with this id. -/
def ownedWallet (l : Ledger) (uid wid : Nat) : Bool :=
  l.wallets.any fun w => w.id == wid && w.userId == uid && w.deletedAt == none

/-- Fund ownership check (existence only; no kind condition). -/
def ownedFund (l : Ledger) (uid fid : Nat) : Bool :=
  l.funds.any fun f => f.id == fid && f.userId == uid && f.deletedAt == none

/-- The income-allocation computation shared by the create route's
allocation loop and both edit routes' reallocation loops: every pull
`(fundId, pct)` receives `amount * pct / 100`, accumulated into
`allocatedTotal`, and the savings fund receives the literal remainder
`amount - allocatedTotal`.  Returns the `(fundId, pct, allocated)` rows and
the savings remainder. -/
def allocateIncome (amount : ℚ) (pulls : List (Nat × ℚ)) :
    List (Nat × ℚ × ℚ) × ℚ :=
  let allocs := pulls.map fun pr => (pr.1, pr.2, amount * pr.2 / 100)
  (allocs, amount - (allocs.map fun a => a.2.2).sum)

/-- The create route's plan of INSERT statements.  Returns the list of
statements (each a list of rows, written by one `db.insert`) together with
the event id; ids are assigned from `l.nextId` in write order. -/
def createStatements (l : Ledger) (uid : Nat) (req : CreateReq) :
    Except ApiErr (List (List Posting) × Nat) :=
  let occurredAt := req.occurredAt
  let eventIsPending := req.isPending.getD true
  match req.body with
  | .income walletId amount =>
      let userFunds := l.funds.filter fun f => f.userId == uid && f.deletedAt == none
      match (userFunds.find? (·.isSavings)).map (·.id) with
      | none => .error (.badRequest "Missing savings fund. Call POST /api/bootstrap first.")
      | some savingsFundId =>
          if walletId == 0 then .error (.badRequest "Missing walletId")
          else if amount ≤ 0 then .error (.badRequest "Income amount must be > 0")
          else if !ownedWallet l uid walletId then .error (.notFound "Wallet not found")
          else
            let pulls := ((userFunds.filter fun f => !f.isSavings).map fun f =>
              (f.id, f.pullPercentage)).filter fun pr => 0 < pr.2
            let pullSum := (pulls.map (·.2)).sum
            if 100 < pullSum then
              .error (.badRequest "Invalid fund pulls: sum exceeds 100")
            else
              let parent : Posting :=
                { id := l.nextId, userId := uid, occurredAt
                  description := req.description, isPosting := false
                  isPending := eventIsPending, amount := 0 }
              let ar := allocateIncome amount pulls
              let allocRows := ar.1.enum.map fun ia =>
                ({ id := l.nextId + 1 + ia.1, userId := uid
                   parentId := some l.nextId, occurredAt
                   isPending := eventIsPending, incomePull := some ia.2.2.1
                   walletId := some walletId, fundId := some ia.2.1
                   amount := ia.2.2.2 } : Posting)
              let savingsRow : Posting :=
                { id := l.nextId + 1 + ar.1.length, userId := uid
                  parentId := some l.nextId, occurredAt
                  isPending := eventIsPending, incomePull := some (100 - pullSum)
                  walletId := some walletId, fundId := some savingsFundId
                  amount := ar.2 }
              .ok ([[parent], allocRows ++ [savingsRow]], l.nextId)
  | .expense lines =>
      if lines.isEmpty then .error (.badRequest "Missing lines")
      else
        match parseLines eventIsPending lines with
        | .error e => .error e
        | .ok parsed =>
            let neededWalletIds := ((parsed.filterMap (·.walletId)).filter (· != 0)).dedup
            let neededFundIds := ((parsed.filterMap (·.fundId)).filter (· != 0)).dedup
            if !(neededWalletIds.all fun wid => ownedWallet l uid wid) then
              .error (.badRequest "One or more wallets not found")
            else if !(neededFundIds.all fun fid => ownedFund l uid fid) then
              .error (.badRequest "One or more funds not found")
            else
              match parsed with
              | [line] =>
                  -- single line: stored as a posting-only event, one insert
                  let row : Posting :=
                    { id := l.nextId, userId := uid, occurredAt
                      description := req.description
                      isPending := line.isPending
                      walletId := line.walletId, fundId := line.fundId
                      amount := line.amount }
                  .ok ([[row]], l.nextId)
              | _ =>
                  let parent : Posting :=
                    { id := l.nextId, userId := uid, occurredAt
                      description := req.description, isPosting := false
                      isPending := eventIsPending, amount := 0 }
                  let children := parsed.enum.map fun il =>
                    ({ id := l.nextId + 1 + il.1, userId := uid
                       parentId := some l.nextId, occurredAt
                       description := il.2.description
                       isPending := il.2.isPending
                       walletId := il.2.walletId, fundId := il.2.fundId
                       amount := il.2.amount } : Posting)
                  .ok ([[parent], children], l.nextId)

/-- Executing one INSERT statement: append its rows and advance the id
sequence. -/
def applyStatement (l : Ledger) (rows : List Posting) : Ledger :=
  { l with postings := l.postings ++ rows, nextId := l.nextId + rows.length }

/-- The create route, run to completion (every INSERT succeeds). -/
def createEvent (l : Ledger) (uid : Nat) (req : CreateReq) :
    Except ApiErr (Ledger × Nat) :=
  (createStatements l uid req).map fun sr => (sr.1.foldl applyStatement l, sr.2)

/-! ## `PATCH /api/transactions/[id]` — editEvent

Embeds the revision of the edit route with overdraft advance/repayment
side-postings (src/app/api/transactions/[id]/route.ts).  That revision
issues its statements sequentially with no `db.transaction` wrapper, so the
handler is modelled as `Ledger → Ledger × Except ApiErr Nat`: the returned
ledger carries whatever statements had executed, also on an error
response. -/

/-- The parsed PATCH body; `none` marks an absent field. -/
structure PatchReq where
  occurredAt : Option Int := none
  description : Option (Option String) := none
  isPending : Option Bool := none
  type : Option String := none
  lines : Option (List LineInput) := none
  walletId : Option Nat := none
  amount : Option ℚ := none
deriving DecidableEq

/-- `ensureSystemFunds` (lines 105-123): the user's active `income` and
`savings` funds must exist (a missing one throws, surfaced as 400). -/
def ensureSystemFunds (l : Ledger) (uid : Nat) : Except ApiErr (Nat × Nat) :=
  let userFunds := l.funds.filter fun f => f.userId == uid && f.deletedAt == none
  match (userFunds.find? fun f => f.kind == .income).map (·.id),
      (userFunds.find? fun f => f.kind == .savings).map (·.id) with
  | some i, some s =>
      if i == 0 || s == 0 then .error (.badRequest "Missing income/savings fund")
      else .ok (i, s)
  | _, _ => .error (.badRequest "Missing income/savings fund")

/-- `fundKindByIdAll`: kind of an active fund of the user. -/
def fundKindOfAll (l : Ledger) (uid fid : Nat) : Option FundKind :=
  (l.funds.find? fun f => f.userId == uid && f.deletedAt == none && f.id == fid).map (·.kind)

/-- Event lookup (id, owner, root row, not soft-deleted). -/
def findEvent (l : Ledger) (uid eid : Nat) : Option Posting :=
  l.postings.find? fun p =>
    p.id == eid && p.userId == uid && p.parentId == none && p.deletedAt == none

/-- Append one row, assigning it the next id. -/
def pushRow (l : Ledger) (mk : Nat → Posting) : Ledger :=
  { l with postings := l.postings ++ [mk l.nextId], nextId := l.nextId + 1 }

/-- The in-memory `Map` caches of the edit route. -/
def cacheGet (c : List (Nat × ℚ)) (k : Nat) : Option ℚ :=
  (c.find? fun kv => kv.1 == k).map (·.2)

def cacheSet (c : List (Nat × ℚ)) (k : Nat) (v : ℚ) : List (Nat × ℚ) :=
  (k, v) :: c.filter fun kv => kv.1 != k

/-- Metadata-only branch (lines 187-228): update `occurredAt`,
`description`, `isPending` on the event row and `occurredAt`, `isPending`
on every child row (the child UPDATE has no `deletedAt` filter). -/
def metaUpdate (l : Ledger) (uid eid : Nat) (occurredAt : Int)
    (description : Option String) (isPending : Bool) : Ledger :=
  { l with postings := l.postings.map fun p =>
      if p.userId == uid && p.id == eid then
        { p with occurredAt, description, isPending }
      else if p.userId == uid && p.parentId == some eid then
        { p with occurredAt, isPending }
      else p }

/-- Rebuild preamble (lines 260-286): turn the event row into a parent row
(`isPosting = false`, refs cleared, amount 0) and void every child. -/
def rebuildBase (l : Ledger) (uid eid : Nat) (occurredAt : Int)
    (description : Option String) (isPending : Bool) : Ledger :=
  { l with postings := l.postings.map fun p =>
      if p.userId == uid && p.id == eid then
        { p with
          occurredAt, description, isPending, isPosting := false
          walletId := none, fundId := none, amount := 0 }
      else if p.userId == uid && p.parentId == some eid then
        { p with status := .void }
      else p }

/-- One iteration of the income-rebuild allocation loop (lines 371-434):
insert the allocation row; if the destination fund is `regular` and the
allocation positive, repay outstanding overdraft debt with a
repayment pair.  `a` is `(destFundId, pct, allocated)`. -/
def incomeAllocStep (uid eid savingsFundId : Nat) (occurredAt : Int)
    (isPending : Bool) (kindOf : Nat → Option FundKind) (walletId : Nat)
    (acc : Ledger × List (Nat × ℚ)) (a : Nat × ℚ × ℚ) : Ledger × List (Nat × ℚ) :=
  let l := pushRow acc.1 fun i =>
    { id := i, userId := uid, parentId := some eid, occurredAt
      isPending, incomePull := some a.2.1
      walletId := some walletId, fundId := some a.1, amount := a.2.2 }
  if kindOf a.1 == some .regular && 0 < a.2.2 then
    let debtBefore := (cacheGet acc.2 a.1).getD (getOverdraftDebtAsOf l uid a.1 occurredAt)
    let repay := min a.2.2 debtBefore
    if 0 < repay then
      let l := pushRow l fun i =>
        { id := i, userId := uid, parentId := some eid, occurredAt
          isPending, walletId := none, fundId := some a.1, amount := -repay
          postingKind := .overdraftRepayment }
      let l := pushRow l fun i =>
        { id := i, userId := uid, parentId := some eid, occurredAt
          isPending, walletId := none, fundId := some savingsFundId, amount := repay
          postingKind := .overdraftRepayment }
      (l, cacheSet acc.2 a.1 (debtBefore - repay))
    else (l, acc.2)
  else (l, acc.2)

/-- Income rebuild branch (lines 288-451), starting from the state after
`rebuildBase`.  The allocation inputs come from `snapshot`, the stored
`(fundId, incomePull)` pairs of the event's posted children, read before
the rebuild voided them. -/
def patchIncome (l2 : Ledger) (uid eid savingsFundId : Nat) (occurredAt : Int)
    (isPending : Bool) (kindOf : Nat → Option FundKind)
    (snapshot : List (Option Nat × Option ℚ))
    (walletIdOpt : Option Nat) (amountOpt : Option ℚ) :
    Ledger × Except ApiErr Nat :=
  let walletId := walletIdOpt.getD 0
  if walletId == 0 then (l2, .error (.badRequest "Missing walletId"))
  else
    let amount := amountOpt.getD 0
    if amount ≤ 0 then (l2, .error (.badRequest "Income amount must be > 0"))
    else if !ownedWallet l2 uid walletId then (l2, .error (.notFound "Wallet not found"))
    else if snapshot.isEmpty then
      (l2, .error (.badRequest "Income is missing pull snapshot (transactions.incomePull). Run your migration script first."))
    else
      match snapshot.find? fun s => s.1 == some savingsFundId with
      | none =>
          (l2, .error (.badRequest "Income snapshot is missing savings pull. Run your migration script first."))
      | some savingsSnap =>
          if savingsSnap.2 == none then
            (l2, .error (.badRequest "Income snapshot is missing savings pull. Run your migration script first."))
          else
            let normalizedPulls := (snapshot.filter fun s =>
              s.1.getD 0 != 0 && s.1 != some savingsFundId).map fun s =>
                (s.1.getD 0, s.2.getD 0)
            let pullSum : ℚ := (normalizedPulls.map (·.2)).sum
            if 100 < pullSum then
              (l2, .error (.badRequest "Invalid income snapshot: sum exceeds 100"))
            else
              let ar := allocateIncome amount normalizedPulls
              let stepped := ar.1.foldl
                (incomeAllocStep uid eid savingsFundId occurredAt isPending kindOf walletId)
                (l2, [])
              let lf := pushRow stepped.1 fun i =>
                { id := i, userId := uid, parentId := some eid, occurredAt
                  isPending, incomePull := some (savingsSnap.2.getD 0)
                  walletId := some walletId, fundId := some savingsFundId
                  amount := ar.2 }
              (lf, .ok eid)

/-- The repayment prelude of the multi-line loop body (lines 700-741):
for a positive line on a `regular` fund with outstanding overdraft debt,
insert the repayment pair and update `overdraftDebtCache`. -/
def repayStep (uid eid savingsFundId : Nat) (occurredAt : Int)
    (line : ParsedLine) (fid : Nat) (l : Ledger) (debtCache : List (Nat × ℚ)) :
    Ledger × List (Nat × ℚ) :=
  if 0 < line.amount then
    let debtBefore := (cacheGet debtCache fid).getD (getOverdraftDebtAsOf l uid fid occurredAt)
    let repay := min line.amount debtBefore
    if 0 < repay then
      let l := pushRow l fun i =>
        { id := i, userId := uid, parentId := some eid, occurredAt
          isPending := line.isPending, walletId := none, fundId := some fid
          amount := -repay, postingKind := .overdraftRepayment }
      let l := pushRow l fun i =>
        { id := i, userId := uid, parentId := some eid, occurredAt
          isPending := line.isPending, walletId := none
          fundId := some savingsFundId, amount := repay
          postingKind := .overdraftRepayment }
      (l, cacheSet debtCache fid (debtBefore - repay))
    else (l, debtCache)
  else (l, debtCache)

/-- One iteration of the multi-line expense rebuild loop (lines 695-818):
repayment pair for a positive line on a `regular` fund with outstanding
debt, then the line row, then an overdraft advance pair when the cached (or
freshly queried) fund balance would go negative.  The accumulator carries
the ledger, the `fundBalanceCache`, the `overdraftDebtCache`, and a thrown
error (which aborts the remaining iterations, keeping prior writes). -/
def expenseLineStep (uid eid savingsFundId : Nat) (occurredAt : Int)
    (kindOf : Nat → Option FundKind)
    (acc : Ledger × List (Nat × ℚ) × List (Nat × ℚ) × Option ApiErr)
    (line : ParsedLine) :
    Ledger × List (Nat × ℚ) × List (Nat × ℚ) × Option ApiErr :=
  match acc with
  | (l, balCache, debtCache, some e) => (l, balCache, debtCache, some e)
  | (l, balCache, debtCache, none) =>
      let fid := line.fundId.getD 0
      if fid != 0 && kindOf fid == some .regular then
        let step1 := repayStep uid eid savingsFundId occurredAt line fid l debtCache
        let l := step1.1
        let debtCache := step1.2
        let balanceBeforeQ :=
          match cacheGet balCache fid with
          | some v => Except.ok v
          | none => getFundBalanceAsOf l uid fid occurredAt
        match balanceBeforeQ with
        | .error _ => (l, balCache, debtCache, some (.badRequest "Fund not found"))
        | .ok balanceBefore =>
            let balanceAfter := balanceBefore + line.amount
            let l := pushRow l fun i =>
              { id := i, userId := uid, parentId := some eid, occurredAt
                description := line.description, isPending := line.isPending
                walletId := line.walletId, fundId := some fid, amount := line.amount }
            if balanceAfter < 0 then
              let deficit := -balanceAfter
              let l := pushRow l fun i =>
                { id := i, userId := uid, parentId := some eid, occurredAt
                  isPending := line.isPending, walletId := none, fundId := some fid
                  amount := deficit, postingKind := .overdraftAdvance }
              let l := pushRow l fun i =>
                { id := i, userId := uid, parentId := some eid, occurredAt
                  isPending := line.isPending, walletId := none
                  fundId := some savingsFundId, amount := -deficit
                  postingKind := .overdraftAdvance }
              (l, cacheSet balCache fid 0, debtCache, none)
            else
              (l, cacheSet balCache fid balanceAfter, debtCache, none)
      else
        let l := pushRow l fun i =>
          { id := i, userId := uid, parentId := some eid, occurredAt
            description := line.description, isPending := line.isPending
            walletId := line.walletId, fundId := line.fundId, amount := line.amount }
        (l, balCache, debtCache, none)

/-- Single-line expense rebuild (lines 553-689): repayment path, overdraft
path, or in-place conversion of the event row back into a posting. -/
def patchSingleLine (l2 : Ledger) (uid eid savingsFundId : Nat)
    (occurredAt : Int) (kindOf : Nat → Option FundKind) (line : ParsedLine) :
    Ledger × Except ApiErr Nat :=
  let fid := line.fundId.getD 0
  let inPlace : Ledger × Except ApiErr Nat :=
    ({ l2 with postings := l2.postings.map fun p =>
        if p.userId == uid && p.id == eid then
          { p with
            isPosting := true, isPending := line.isPending
            walletId := line.walletId, fundId := line.fundId, amount := line.amount }
        else p }, .ok eid)
  if fid == 0 || kindOf fid != some .regular then inPlace
  else
    let repayDone : Option (Ledger × Except ApiErr Nat) :=
      if 0 < line.amount then
        let debtBefore := getOverdraftDebtAsOf l2 uid fid occurredAt
        let repay := min line.amount debtBefore
        if 0 < repay then
          let l := pushRow l2 fun i =>
            { id := i, userId := uid, parentId := some eid, occurredAt
              description := line.description, isPending := line.isPending
              walletId := line.walletId, fundId := some fid, amount := line.amount }
          let l := pushRow l fun i =>
            { id := i, userId := uid, parentId := some eid, occurredAt
              isPending := line.isPending, walletId := none, fundId := some fid
              amount := -repay, postingKind := .overdraftRepayment }
          let l := pushRow l fun i =>
            { id := i, userId := uid, parentId := some eid, occurredAt
              isPending := line.isPending, walletId := none
              fundId := some savingsFundId, amount := repay
              postingKind := .overdraftRepayment }
          some (l, .ok eid)
        else none
      else none
    match repayDone with
    | some r => r
    | none =>
        match getFundBalanceAsOf l2 uid fid occurredAt with
        | .error _ => (l2, .error (.badRequest "Fund not found"))
        | .ok balanceBefore =>
            let balanceAfter := balanceBefore + line.amount
            if balanceAfter < 0 then
              let deficit := -balanceAfter
              let l := pushRow l2 fun i =>
                { id := i, userId := uid, parentId := some eid, occurredAt
                  description := line.description, isPending := line.isPending
                  walletId := line.walletId, fundId := some fid, amount := line.amount }
              let l := pushRow l fun i =>
                { id := i, userId := uid, parentId := some eid, occurredAt
                  isPending := line.isPending, walletId := none, fundId := some fid
                  amount := deficit, postingKind := .overdraftAdvance }
              let l := pushRow l fun i =>
                { id := i, userId := uid, parentId := some eid, occurredAt
                  isPending := line.isPending, walletId := none
                  fundId := some savingsFundId, amount := -deficit
                  postingKind := .overdraftAdvance }
              (l, .ok eid)
            else inPlace

/-- Expense rebuild branch (lines 454-820), starting from the state after
`rebuildBase`. -/
def patchExpense (l2 : Ledger) (uid eid savingsFundId : Nat)
    (occurredAt : Int) (eventIsPending : Bool)
    (linesOpt : Option (List LineInput)) : Ledger × Except ApiErr Nat :=
  match linesOpt with
  | none => (l2, .error (.badRequest "Missing lines"))
  | some lines =>
      if lines.isEmpty then (l2, .error (.badRequest "Missing lines"))
      else
        match parseLines eventIsPending lines with
        | .error e => (l2, .error e)
        | .ok parsed =>
            let neededWalletIds := ((parsed.filterMap (·.walletId)).filter (· != 0)).dedup
            let neededFundIds := ((parsed.filterMap (·.fundId)).filter (· != 0)).dedup
            if !(neededWalletIds.all fun wid => ownedWallet l2 uid wid) then
              (l2, .error (.badRequest "One or more wallets not found"))
            else if !(neededFundIds.all fun fid => ownedFund l2 uid fid) then
              (l2, .error (.badRequest "One or more funds not found"))
            else
              let kindOf := fundKindOfAll l2 uid
              match parsed with
              | [line] => patchSingleLine l2 uid eid savingsFundId occurredAt kindOf line
              | _ =>
                  let r := parsed.foldl
                    (expenseLineStep uid eid savingsFundId occurredAt kindOf)
                    (l2, [], [], none)
                  match r.2.2.2 with
                  | some e => (r.1, .error e)
                  | none => (r.1, .ok eid)

/-- The full PATCH handler. -/
def patchEvent (l : Ledger) (uid eid : Nat) (req : PatchReq) :
    Ledger × Except ApiErr Nat :=
  match ensureSystemFunds l uid with
  | .error e => (l, .error e)
  | .ok is =>
      let savingsFundId := is.2
      if eid == 0 then (l, .error (.badRequest "Invalid id"))
      else
        match findEvent l uid eid with
        | none => (l, .error (.notFound "Event not found"))
        | some event =>
            let hasRebuildChanges := req.type.isSome || req.lines.isSome ||
              req.walletId.isSome || req.amount.isSome
            let hasMetaChanges := req.occurredAt.isSome || req.description.isSome ||
              req.isPending.isSome
            if !hasRebuildChanges && hasMetaChanges then
              let occurredAt := req.occurredAt.getD event.occurredAt
              let description := match req.description with
                | none => event.description
                | some d => d
              let isPending := req.isPending.getD event.isPending
              (metaUpdate l uid eid occurredAt description isPending, .ok eid)
            else
              let occurredAt := req.occurredAt.getD event.occurredAt
              let description := match req.description with
                | some (some s) => some s
                | _ => event.description
              let ty := req.type.getD "expense"
              let eventIsPending := req.isPending.getD event.isPending
              let snapshot :=
                if ty != "income" then []
                else (l.postings.filter fun p =>
                  p.userId == uid && p.parentId == some eid && p.status == .posted &&
                    p.isPosting && p.deletedAt == none && p.incomePull != none).map
                  fun p => (p.fundId, p.incomePull)
              let l2 := rebuildBase l uid eid occurredAt description eventIsPending
              if ty == "income" then
                patchIncome l2 uid eid savingsFundId occurredAt eventIsPending
                  (fundKindOfAll l2 uid) snapshot req.walletId req.amount
              else
                patchExpense l2 uid eid savingsFundId occurredAt eventIsPending req.lines

/-! ## Earlier revision of `PATCH`/`DELETE /api/transactions/[id]`

The revision that soft-deletes via `deletedAt`, wraps edits in
`db.transaction`, and recognises income events by the stored `incomePull`
snapshot on their children (`isIncomeLikeEvent`).  `patch013` embeds the
income-edit branch and the metadata-only branch (the slice taken by every
body without a `lines` array); the lines-rebuild branch and the full
dispatch are embedded below as `rebuild013` and `patch013Full`; the
`DELETE` handler is embedded in full. -/

/-- A PATCH body of that revision without a `lines` array. -/
structure Patch013Req where
  occurredAt : Option Int := none
  description : Option (Option String) := none
  isPending : Option Bool := none
  type : Option String := none
  walletId : Option Nat := none
  amount : Option ℚ := none
deriving DecidableEq

/-- `allocationPostings.sort((a, b) => a.id - b.id)`: insertion sort on
ascending id. -/
def insertById (p : Posting) : List Posting → List Posting
  | [] => [p]
  | q :: qs => if p.id ≤ q.id then p :: q :: qs else q :: insertById p qs

def sortById (ps : List Posting) : List Posting := ps.foldr insertById []

/-- The earlier PATCH handler on bodies without `lines`: the income branch
(when the body says `type: "income"` or the event is income-like) and the
metadata-only branch.  The edit runs inside `db.transaction`, so the single
in-transaction throw (missing savings allocation posting) rolls everything
back and the original ledger is returned with the error. -/
def patch013 (l : Ledger) (uid eid : Nat) (req : Patch013Req) :
    Ledger × Except ApiErr Nat :=
  if eid == 0 then (l, .error (.badRequest "Invalid id"))
  else
    match findEvent l uid eid with
    | none => (l, .error (.notFound "Event not found"))
    | some event =>
        let childPostings := l.postings.filter fun p =>
          p.userId == uid && p.parentId == some eid && p.isPosting && p.deletedAt == none
        let occurredAt := req.occurredAt.getD event.occurredAt
        let description := match req.description with
          | none => event.description
          | some d => d
        let eventIsPending := req.isPending.getD event.isPending
        let incomeLike := !event.isPosting && childPostings.any fun p => p.incomePull != none
        if req.type == some "income" || incomeLike then
          let nextWalletId := req.walletId.getD 0
          if nextWalletId == 0 then (l, .error (.badRequest "Missing walletId"))
          else
            let nextTotal := req.amount.getD 0
            if nextTotal ≤ 0 then (l, .error (.badRequest "Income amount must be > 0"))
            else if !ownedWallet l uid nextWalletId then
              (l, .error (.notFound "Wallet not found"))
            else
              match (l.funds.find? fun f =>
                  f.userId == uid && f.isSavings && f.deletedAt == none).map (·.id) with
              | none =>
                  (l, .error (.badRequest "Missing savings fund. Call POST /api/bootstrap first."))
              | some savingsFundId =>
                  let lMeta : Ledger :=
                    { l with postings := l.postings.map fun p =>
                        if p.userId == uid && p.id == eid then
                          { p with occurredAt, description, isPending := eventIsPending }
                        else if p.userId == uid && p.parentId == some eid &&
                            p.deletedAt == none then
                          { p with occurredAt, isPending := eventIsPending }
                        else p }
                  let allocationPostings :=
                    sortById (childPostings.filter fun p => p.incomePull != none)
                  if allocationPostings.isEmpty then (lMeta, .ok eid)
                  else
                    match allocationPostings.find? fun p => p.fundId == some savingsFundId with
                    | none =>
                        (l, .error (.badRequest "Missing savings allocation posting for this income event"))
                    | some savingsPosting =>
                        let nonSavings := allocationPostings.filter fun p =>
                          p.id != savingsPosting.id
                        let ar := allocateIncome nextTotal
                          (nonSavings.map fun q => (q.id, q.incomePull.getD 0))
                        let lFinal : Ledger :=
                          { lMeta with postings := lMeta.postings.map fun p =>
                              if p.userId == uid then
                                match nonSavings.find? fun q => q.id == p.id with
                                | some q =>
                                    { p with
                                      walletId := some nextWalletId
                                      amount := nextTotal * q.incomePull.getD 0 / 100 }
                                | none =>
                                    if p.id == savingsPosting.id then
                                      { p with
                                        walletId := some nextWalletId
                                        amount := ar.2 }
                                    else p
                              else p }
                        (lFinal, .ok eid)
        else
          ({ l with postings := l.postings.map fun p =>
              if p.userId == uid && p.id == eid then
                { p with occurredAt, description, isPending := eventIsPending }
              else if !event.isPosting && p.userId == uid && p.parentId == some eid &&
                  p.deletedAt == none then
                { p with occurredAt, isPending := eventIsPending }
              else p }, .ok eid)

/-- The earlier DELETE handler: looks up the active root event (404 when
none, in particular when it was already soft-deleted) and sets `deletedAt`
on the event row and on every child row. -/
def deleteEvent013 (l : Ledger) (uid eid : Nat) (now : Int) :
    Ledger × Except ApiErr Nat :=
  if eid == 0 then (l, .error (.badRequest "Invalid id"))
  else
    match findEvent l uid eid with
    | none => (l, .error (.notFound "Event not found"))
    | some _ =>
        ({ l with postings := l.postings.map fun p =>
            if p.userId == uid && (p.id == eid || p.parentId == some eid) then
              { p with deletedAt := some now }
            else p }, .ok eid)

/-! ### The earlier revision's lines-rebuild branch

The PATCH handler of that revision, on bodies that are neither income-like
nor metadata-only, parses a `lines` array (every line must carry *both* a
`walletId` and a `fundId`), validates `transactionId` references and
ownership, and then — inside one `db.transaction` — updates existing rows
in place, soft-deletes unmatched children, and inserts replacement lines
as new rows. -/

/-- One raw element of that revision's `lines` array. -/
structure Line013Input where
  transactionId : Option Nat := none
  walletId : Option Nat := none
  fundId : Option Nat := none
  description : Option String := none
  amount : ℚ
  isPending : Option Bool := none
deriving DecidableEq

/-- A line after that revision's validation loop: both references are
required. -/
structure ParsedLine013 where
  transactionId : Option Nat
  walletId : Nat
  fundId : Nat
  description : Option String
  amount : ℚ
  isPending : Bool
deriving DecidableEq

/-- Validation of one line (lines 286-336): zero amount is rejected and a
line must carry both `walletId` and `fundId`; a line-level pending flag
defaults to the event's. -/
def parseLine013 (eventIsPending : Bool) (line : Line013Input) :
    Except ApiErr ParsedLine013 :=
  if line.amount == 0 then .error (.badRequest "Invalid amount")
  else
    match line.walletId, line.fundId with
    | some w, some f =>
        .ok ⟨line.transactionId, w, f, line.description, line.amount,
          line.isPending.getD eventIsPending⟩
    | _, _ => .error (.badRequest "Line must include walletId and fundId")

def parseLines013 (eventIsPending : Bool) :
    List Line013Input → Except ApiErr (List ParsedLine013)
  | [] => .ok []
  | line :: rest =>
      match parseLine013 eventIsPending line with
      | .error e => .error e
      | .ok p =>
          match parseLines013 eventIsPending rest with
          | .error e => .error e
          | .ok ps => .ok (p :: ps)

/-- The duplicate-`transactionId` scan (lines 386-396). -/
def hasDupTid (seen : List Nat) : List ParsedLine013 → Bool
  | [] => false
  | line :: rest =>
      match line.transactionId with
      | none => hasDupTid seen rest
      | some tid =>
          if seen.contains tid then true else hasDupTid (tid :: seen) rest

/-- The soft-delete UPDATE of the rebuild branch (lines 488-496 and
598-608): set `deletedAt` on the user's rows with the listed ids. -/
def softDeleteRows (uid : Nat) (ids : List Nat) (now : Int) (p : Posting) :
    Posting :=
  if p.userId == uid && ids.contains p.id then
    { p with deletedAt := some now }
  else p

/-- The posting-only UPDATE of the rebuild branch (lines 499-514): turn the
event row back into a single posting carrying the line's references. -/
def lineifyEvent013 (uid eid : Nat) (occurredAt : Int)
    (description : Option String) (line : ParsedLine013) (p : Posting) :
    Posting :=
  if p.userId == uid && p.id == eid then
    { p with
      occurredAt, description, isPosting := true
      isPending := line.isPending, incomePull := none
      walletId := some line.walletId, fundId := some line.fundId
      amount := line.amount }
  else p

/-- The parent-shape UPDATE of the rebuild branch (lines 520-535). -/
def parentifyEvent013 (uid eid : Nat) (occurredAt : Int)
    (description : Option String) (eventIsPending : Bool) (p : Posting) :
    Posting :=
  if p.userId == uid && p.id == eid then
    { p with
      occurredAt, description, isPosting := false
      isPending := eventIsPending, incomePull := none
      walletId := none, fundId := none, amount := 0 }
  else p

/-- The per-line in-place child UPDATE of the rebuild branch (lines
556-579): a row referenced by a line's `transactionId` takes that line's
values (duplicates are rejected earlier, so `find?` is the unique match). -/
def updateChildFromLine013 (uid : Nat) (occurredAt : Int)
    (parsed : List ParsedLine013) (p : Posting) : Posting :=
  if p.userId == uid then
    match parsed.find? fun li => li.transactionId == some p.id with
    | some line =>
        { p with
          occurredAt, description := line.description, isPosting := true
          isPending := line.isPending, incomePull := none
          walletId := some line.walletId, fundId := some line.fundId
          amount := line.amount }
    | none => p
  else p

/-- The child INSERT of the rebuild branch (lines 540-551 and 583-594). -/
def newChildRow013 (uid eid : Nat) (occurredAt : Int) (line : ParsedLine013)
    (i : Nat) : Posting :=
  { id := i, userId := uid, parentId := some eid, occurredAt
    description := line.description, isPending := line.isPending
    walletId := some line.walletId, fundId := some line.fundId
    amount := line.amount }

/-- The event's live child posting ids, read before the rebuild writes
(lines 380-381). -/
def rebuildChildIds (l : Ledger) (uid eid : Nat) : List Nat :=
  (l.postings.filter fun p =>
    p.userId == uid && p.parentId == some eid && p.isPosting &&
      p.deletedAt == none).map (·.id)

/-- The rebuild branch's early-return validations (lines 375-478): empty
lines, duplicate or invalid `transactionId` references, and wallet/fund
ownership. -/
def rebuild013Validate (l : Ledger) (uid eid : Nat) (event : Posting)
    (parsed : List ParsedLine013) : Option ApiErr :=
  if parsed.isEmpty then some (.badRequest "Missing lines")
  else if hasDupTid [] parsed then
    some (.badRequest "Duplicate transactionId in lines")
  else if event.isPosting && parsed.any (fun li =>
      li.transactionId != none && li.transactionId != some eid) then
    some (.badRequest "Invalid transactionId for this event")
  else if !event.isPosting && parsed.any (fun li =>
      li.transactionId == some eid) then
    some (.badRequest "transactionId cannot reference the parent event")
  else if !event.isPosting && parsed.any (fun li =>
      li.transactionId != none &&
        !((rebuildChildIds l uid eid).contains (li.transactionId.getD 0))) then
    some (.badRequest "Invalid transactionId for this event")
  else if !((((parsed.map (·.walletId)).filter (· != 0)).dedup).all fun wid =>
      ownedWallet l uid wid) then
    some (.badRequest "One or more wallets not found")
  else if !((((parsed.map (·.fundId)).filter (· != 0)).dedup).all fun fid =>
      ownedFund l uid fid) then
    some (.badRequest "One or more funds not found")
  else none

/-- The rebuild branch proper (lines 375-609), after line parsing:
validation, then — inside one `db.transaction` — in-place updates,
soft-deletes, and inserts of new child rows. -/
def rebuild013 (l : Ledger) (uid eid : Nat) (event : Posting)
    (occurredAt : Int) (description : Option String) (eventIsPending : Bool)
    (now : Int) (parsed : List ParsedLine013) : Ledger × Except ApiErr Nat :=
  match rebuild013Validate l uid eid event parsed with
  | some e => (l, .error e)
  | none =>
      match parsed with
      | [line] =>
          let ps1 := if !event.isPosting &&
              !(rebuildChildIds l uid eid).isEmpty then
              l.postings.map (softDeleteRows uid (rebuildChildIds l uid eid) now)
            else l.postings
          let ps2 := ps1.map (lineifyEvent013 uid eid occurredAt description line)
          ({ l with postings := ps2 }, .ok eid)
      | _ =>
          let ps1 := l.postings.map
            (parentifyEvent013 uid eid occurredAt description eventIsPending)
          let l1 := { l with postings := ps1 }
          if event.isPosting then
            (parsed.foldl (fun acc line =>
              pushRow acc (newChildRow013 uid eid occurredAt line)) l1, .ok eid)
          else
            let ps2 := ps1.map (updateChildFromLine013 uid occurredAt parsed)
            let l2 := { l with postings := ps2 }
            let l3 := (parsed.filter fun li => li.transactionId == none).foldl
              (fun acc line =>
                pushRow acc (newChildRow013 uid eid occurredAt line)) l2
            let toSoftDelete := (rebuildChildIds l uid eid).filter fun cid =>
              !(parsed.filterMap (·.transactionId)).contains cid
            if toSoftDelete.isEmpty then (l3, .ok eid)
            else
              let ps4 := l3.postings.map (softDeleteRows uid toSoftDelete now)
              ({ l3 with postings := ps4 }, .ok eid)

/-- A full PATCH body of that revision, `lines` included. -/
structure Patch013FullReq where
  occurredAt : Option Int := none
  description : Option (Option String) := none
  isPending : Option Bool := none
  type : Option String := none
  walletId : Option Nat := none
  amount : Option ℚ := none
  lines : Option (List Line013Input) := none
deriving DecidableEq

/-- Forget the `lines` field (the income and metadata branches never read
it). -/
def Patch013FullReq.toReq (r : Patch013FullReq) : Patch013Req :=
  { occurredAt := r.occurredAt, description := r.description
    isPending := r.isPending, type := r.type
    walletId := r.walletId, amount := r.amount }

/-- The earlier revision's whole PATCH handler: the income-like branch
comes first (it never reads `lines`), then bodies without a `lines` array
take the metadata-only branch, and bodies with one take the rebuild
branch. -/
def patch013Full (l : Ledger) (uid eid : Nat) (now : Int)
    (req : Patch013FullReq) : Ledger × Except ApiErr Nat :=
  if eid == 0 then (l, .error (.badRequest "Invalid id"))
  else
    match findEvent l uid eid with
    | none => (l, .error (.notFound "Event not found"))
    | some event =>
        let childPostings := l.postings.filter fun p =>
          p.userId == uid && p.parentId == some eid && p.isPosting &&
            p.deletedAt == none
        let occurredAt := req.occurredAt.getD event.occurredAt
        let description := match req.description with
          | none => event.description
          | some d => d
        let eventIsPending := req.isPending.getD event.isPending
        let incomeLike := !event.isPosting && childPostings.any fun p =>
          p.incomePull != none
        if req.type == some "income" || incomeLike then
          patch013 l uid eid req.toReq
        else
          match req.lines with
          | none => patch013 l uid eid req.toReq
          | some linesIn =>
              match parseLines013 eventIsPending linesIn with
              | .error e => (l, .error e)
              | .ok parsed =>
                  rebuild013 l uid eid event occurredAt description
                    eventIsPending now parsed

/-- The `allocationPostings` of the earlier PATCH handler's income branch:
the event's live child postings carrying an `incomePull` snapshot, in
ascending id order. -/
@[reducible] def allocationPostingsOf (l : Ledger) (uid eid : Nat) : List Posting :=
  sortById ((l.postings.filter fun p =>
    p.userId == uid && p.parentId == some eid && p.isPosting &&
      p.deletedAt == none).filter fun p => p.incomePull != none)

/-- Rewrite every fund's live `pullPercentage` configuration (and nothing
else): used to state that the edit handler never consults it. -/
def pullMap (g : Nat → ℚ) (l : Ledger) : Ledger :=
  { l with funds := l.funds.map fun f => { f with pullPercentage := g f.id } }

/-- The metadata UPDATE payload of the earlier PATCH handler's income
branch (`lMeta`): touch `occurredAt`/`description`/`isPending` on the event
row and `occurredAt`/`isPending` on its live children. -/
def metaTouch013 (uid eid : Nat) (occurredAt : Int) (description : Option String)
    (isPending : Bool) (p : Posting) : Posting :=
  if p.userId == uid && p.id == eid then
    { p with occurredAt, description, isPending }
  else if p.userId == uid && p.parentId == some eid && p.deletedAt == none then
    { p with occurredAt, isPending }
  else p

/-- The reallocation UPDATE payload of the earlier PATCH handler's income
branch (`lFinal`): a non-savings allocation row found in `nonSavings` gets
`amount = T * storedPct / 100`, the savings allocation row gets the
remainder `rem`, and both are repointed at the new wallet. -/
def reallocRow013 (uid w : Nat) (T : ℚ) (nonSavings : List Posting) (spId : Nat)
    (rem : ℚ) (p : Posting) : Posting :=
  if p.userId == uid then
    match nonSavings.find? fun q => q.id == p.id with
    | some q => { p with walletId := some w, amount := T * q.incomePull.getD 0 / 100 }
    | none => if p.id == spId then { p with walletId := some w, amount := rem } else p
  else p

/-- Concrete scenario used to evaluate the edit route on the stale-cache
overdraft case: one income fund, one savings fund, one regular fund with
opening balance 10, and one empty parent event. -/
def overdraftScenarioLedger : Ledger :=
  { wallets := []
    funds := [{ id := 1, userId := 1, openingAmount := 0, kind := .income },
              { id := 2, userId := 1, openingAmount := 0, kind := .savings,
                isSavings := true },
              { id := 3, userId := 1, openingAmount := 10 }]
    postings := [{ id := 4, userId := 1, occurredAt := 0, isPosting := false
                   amount := 0 }]
    nextId := 5 }

/-- The edit request of that scenario: lines −15, +5, −3 all against the
regular fund. -/
def overdraftScenarioReq : PatchReq :=
  { lines := some [{ fundId := some 3, amount := -15, isPending := some false },
      { fundId := some 3, amount := 5, isPending := some false },
      { fundId := some 3, amount := -3, isPending := some false }] }

/-! ## The cross-check invariant

`sum(wallet openingAmounts + wallet-attributed active postings) =
sum(fund openingAmounts + fund-attributed active postings)` over a user's
ledger, on raw unclamped figures. -/

/-- A row that counts toward balances: a money line (`isPosting = true`)
that is posted and not soft-deleted. -/
def Posting.isActive (p : Posting) : Bool :=
  p.isPosting && p.status == .posted && p.deletedAt == none

/-- The user has an active wallet with this id. -/
def hasActiveWallet (ws : List Wallet) (uid wid : Nat) : Bool :=
  ws.any fun w => w.id == wid && w.userId == uid && w.deletedAt == none

/-- The user has an active fund with this id. -/
def hasActiveFund (fs : List Fund) (uid fid : Nat) : Bool :=
  fs.any fun f => f.id == fid && f.userId == uid && f.deletedAt == none

/-- Amount a row contributes to the wallet side: its amount when it is an
active posting of the user attributed to one of the user's active
wallets. -/
def wContrib (ws : List Wallet) (uid : Nat) (p : Posting) : ℚ :=
  if p.isActive && p.userId == uid &&
      (match p.walletId with
       | some wid => hasActiveWallet ws uid wid
       | none => false) then p.amount else 0

/-- Amount a row contributes to the fund side. -/
def fContrib (fs : List Fund) (uid : Nat) (p : Posting) : ℚ :=
  if p.isActive && p.userId == uid &&
      (match p.fundId with
       | some fid => hasActiveFund fs uid fid
       | none => false) then p.amount else 0

/-- Wallet-minus-fund contribution of one row. -/
def rowNet (ws : List Wallet) (fs : List Fund) (uid : Nat) (p : Posting) : ℚ :=
  wContrib ws uid p - fContrib fs uid p

/-- Wallet-minus-fund contribution of a list of rows. -/
def netSum (ws : List Wallet) (fs : List Fund) (uid : Nat) (ps : List Posting) : ℚ :=
  (ps.map (rowNet ws fs uid)).sum

/-- The wallet side of the user's cross-check sum. -/
def walletSide (l : Ledger) (uid : Nat) : ℚ :=
  ((l.wallets.filter fun w => w.userId == uid && w.deletedAt == none).map
    (·.openingAmount)).sum + (l.postings.map (wContrib l.wallets uid)).sum

/-- The fund side of the user's cross-check sum. -/
def fundSide (l : Ledger) (uid : Nat) : ℚ :=
  ((l.funds.filter fun f => f.userId == uid && f.deletedAt == none).map
    (·.openingAmount)).sum + (l.postings.map (fContrib l.funds uid)).sum

/-- The fundamental cross-check invariant. -/
def CrossCheck (l : Ledger) (uid : Nat) : Prop :=
  walletSide l uid = fundSide l uid

/-- Net wallet-minus-fund contribution of one event's rows (the row whose
id is the event id, plus the rows whose `parentId` points at it). -/
def eventNet (l : Ledger) (uid eid : Nat) : ℚ :=
  netSum l.wallets l.funds uid
    (l.postings.filter fun p => p.id == eid || p.parentId == some eid)

/-- Minimal ledger for the cross-check counterexample: one wallet and one
savings fund (both opening 0), no postings.  Its cross-check sum is
`0 = 0`. -/
def c1BaseLedger : Ledger :=
  { wallets := [{ id := 1, userId := 1, openingAmount := 0 }]
    funds := [{ id := 2, userId := 1, openingAmount := 0, isSavings := true }]
    postings := []
    nextId := 3 }

/-- A create request whose single expense line is wallet-only (no
`fundId`) — accepted by the route's line validation. -/
def c1OneSidedReq : CreateReq :=
  { occurredAt := 0, body := .expense [{ walletId := some 1, amount := 5 }] }

/-- Concrete income event (total 100, one 30% pull) used to evaluate the
earlier revision's income edit: parent 4 with allocation postings 5 (fund
3, pull 30, amount 30) and 6 (savings fund 2, pull 70, amount 70). -/
def incomeEditLedger : Ledger :=
  { wallets := [{ id := 1, userId := 1, openingAmount := 0 }]
    funds := [{ id := 2, userId := 1, openingAmount := 0, isSavings := true },
              { id := 3, userId := 1, openingAmount := 0, pullPercentage := 30 }]
    postings := [{ id := 4, userId := 1, occurredAt := 0, isPosting := false
                   amount := 0 },
                 { id := 5, userId := 1, parentId := some 4, occurredAt := 0
                   incomePull := some 30, walletId := some 1, fundId := some 3
                   amount := 30 },
                 { id := 6, userId := 1, parentId := some 4, occurredAt := 0
                   incomePull := some 70, walletId := some 1, fundId := some 2
                   amount := 70 }]
    nextId := 7 }

/-- The edit request raising the income total to 200. -/
def incomeEditReq : Patch013Req := { walletId := some 1, amount := some 200 }

/-! # Theorems -/

/-! Reduction lemmas for the `BEq` instances of the enum columns, used to
evaluate the handlers on concrete ledgers. -/

theorem beq_fundKind (a b : FundKind) : (a == b) = decide (a = b) := rfl

theorem beq_txStatus (a b : TxStatus) : (a == b) = decide (a = b) := rfl

theorem beq_postingKind (a b : PostingKind) : (a == b) = decide (a = b) := rfl

/-! ## C4 — fund display transform -/

/-- **C4.** For every UI-facing fund listing, each non-savings fund's
displayed balance equals `max 0 rawBalance`, the savings fund's displayed
balance equals its raw balance minus the sum over the non-savings funds of
`max 0 (-rawBalance)`, the transform is applied separately and
independently to the cleared and with-pending views, and the raw values
(the pure sums) are returned alongside the displayed values. -/
theorem fund_display_clamps_and_savings_absorbs (l : Ledger) (uid : Nat)
    (f : FundTotalRow) (hf : f ∈ fundTotalsDisplay l uid) :
    (f.isSavings = false → f.balance = max 0 f.rawBalance ∧
      f.balanceWithPending = max 0 f.rawBalanceWithPending) ∧
    (f.isSavings = true →
      f.balance = f.rawBalance -
        (((fundTotalsRaw l uid).filter fun g => !g.isSavings).map fun g =>
          max 0 (-g.rawBalance)).sum ∧
      f.balanceWithPending = f.rawBalanceWithPending -
        (((fundTotalsRaw l uid).filter fun g => !g.isSavings).map fun g =>
          max 0 (-g.rawBalanceWithPending)).sum) ∧
    (∃ g ∈ fundTotalsRaw l uid, g.id = f.id ∧ f.rawBalance = g.balance ∧
      f.rawBalanceWithPending = g.balanceWithPending) := by
  unfold fundTotalsDisplay at hf
  simp only [List.mem_map] at hf
  obtain ⟨g, hg, rfl⟩ := hf
  have hraw : ∀ r ∈ fundTotalsRaw l uid, r.balance = r.rawBalance ∧
      r.balanceWithPending = r.rawBalanceWithPending := by
    intro r hr
    unfold fundTotalsRaw at hr
    simp only [List.mem_map] at hr
    obtain ⟨f0, _, rfl⟩ := hr
    exact ⟨rfl, rfl⟩
  obtain ⟨h1, h2⟩ := hraw g hg
  cases hB : g.isSavings
  · exact ⟨fun _ => ⟨by simp [hB, deficitCleared], by simp [hB, deficitWithPending]⟩,
      fun hcon => by simp [hB] at hcon, g, hg, rfl, by simp [h1], by simp [h2]⟩
  · exact ⟨fun hcon => by simp [hB] at hcon,
      fun _ => ⟨by simp [hB, deficitCleared], by simp [hB, deficitWithPending]⟩,
      g, hg, rfl, by simp [h1], by simp [h2]⟩

/-- Witness for C4 on a concrete two-fund ledger (a savings fund with raw
balance 200 and a regular fund overspent to raw −50): the savings fund's
display row. -/
theorem fund_display_clamps_witness :
    let l : Ledger :=
      { wallets := []
        funds := [{ id := 1, userId := 1, openingAmount := 200, isSavings := true },
                  { id := 2, userId := 1, openingAmount := -50 }]
        postings := [], nextId := 3 }
    let f₀ : FundTotalRow :=
      { id := 1, isSavings := true, rawBalance := 200, rawBalanceWithPending := 200
        balance := 150, balanceWithPending := 150 }
    f₀ ∈ fundTotalsDisplay l 1 ∧
      f₀.balance = f₀.rawBalance -
        (((fundTotalsRaw l 1).filter fun g => !g.isSavings).map
          fun g => max 0 (-g.rawBalance)).sum := by
  intro l f₀
  have hmem : f₀ ∈ fundTotalsDisplay l 1 := by
    norm_num [fundTotalsDisplay, fundTotalsRaw, deficitCleared, deficitWithPending,
      sumAmounts, sumCleared, fundTotalsJoin, l, f₀]
  exact ⟨hmem, ((fund_display_clamps_and_savings_absorbs l 1 f₀ hmem).2.1 rfl).1⟩

/-! ## C2 — income allocation exactness -/

theorem sumAmounts_append (xs ys : List Posting) :
    sumAmounts (xs ++ ys) = sumAmounts xs + sumAmounts ys := by
  simp [sumAmounts]

/-- The amounts of the allocation rows built by the income create branch
are the allocated amounts. -/
theorem income_alloc_rows_amounts (xs : List (Nat × ℚ × ℚ)) (uid base : Nat)
    (t : Int) (pend : Bool) (w : Nat) :
    ((xs.enum.map fun ia =>
      ({ id := base + 1 + ia.1, userId := uid, parentId := some base
         occurredAt := t, isPending := pend, incomePull := some ia.2.2.1
         walletId := some w, fundId := some ia.2.1
         amount := ia.2.2.2 } : Posting)).map (·.amount)) = xs.map (·.2.2) := by
  rw [List.map_map]
  have h2 : xs.enum.map (fun ia => ia.2.2.2) = (xs.enum.map Prod.snd).map (·.2.2) := by
    rw [List.map_map]; rfl
  calc xs.enum.map _ = xs.enum.map (fun ia => ia.2.2.2) := rfl
    _ = (xs.enum.map Prod.snd).map (·.2.2) := h2
    _ = xs.map (·.2.2) := by rw [List.enum_map_snd]

/-- Every allocation row built by the income create branch is a posting
row, so the `isPosting` filter keeps all of them. -/
theorem income_alloc_rows_filter (xs : List (Nat × ℚ × ℚ)) (uid base : Nat)
    (t : Int) (pend : Bool) (w : Nat) :
    ((xs.enum.map fun ia =>
      ({ id := base + 1 + ia.1, userId := uid, parentId := some base
         occurredAt := t, isPending := pend, incomePull := some ia.2.2.1
         walletId := some w, fundId := some ia.2.1
         amount := ia.2.2.2 } : Posting)).filter (·.isPosting)) =
      xs.enum.map fun ia =>
        ({ id := base + 1 + ia.1, userId := uid, parentId := some base
           occurredAt := t, isPending := pend, incomePull := some ia.2.2.1
           walletId := some w, fundId := some ia.2.1
           amount := ia.2.2.2 } : Posting) := by
  apply List.filter_eq_self.mpr
  intro p hp
  simp only [List.mem_map] at hp
  obtain ⟨ia, _, rfl⟩ := hp
  rfl

theorem allocateIncome_sum_total (T : ℚ) (pulls : List (Nat × ℚ)) :
    ((allocateIncome T pulls).1.map fun a => a.2.2).sum + (allocateIncome T pulls).2 = T := by
  simp only [allocateIncome]
  ring

/-- **C2.** For every income event created or edited with total amount
`T > 0` and non-savings pulls `p₁ … pₙ` (each positive, summing to at most
100), every non-savings allocation is exactly `T * pᵢ / 100`, the savings
allocation is the literal remainder `T` minus the sum of the non-savings
allocations, the amounts sum exactly to `T`, and for a successful income
`createEvent` the posting rows written for the event sum exactly to `T`. -/
theorem income_allocation_exact (T : ℚ) (pulls : List (Nat × ℚ))
    (hT : 0 < T) (hpos : ∀ pr ∈ pulls, 0 < pr.2)
    (hsum : (pulls.map (·.2)).sum ≤ 100) :
    ((allocateIncome T pulls).1 = pulls.map fun pr => (pr.1, pr.2, T * pr.2 / 100)) ∧
    (allocateIncome T pulls).2 = T - (pulls.map fun pr => T * pr.2 / 100).sum ∧
    ((allocateIncome T pulls).1.map fun a => a.2.2).sum + (allocateIncome T pulls).2 = T ∧
    ∀ (l : Ledger) (uid : Nat) (req : CreateReq) (w : Nat) (l' : Ledger) (eid : Nat),
      req.body = .income w T → createEvent l uid req = .ok (l', eid) →
      sumAmounts ((l'.postings.drop l.postings.length).filter (·.isPosting)) = T := by
  refine ⟨rfl, ?_, allocateIncome_sum_total T pulls, ?_⟩
  · simp only [allocateIncome, List.map_map]
    rfl
  · intro l uid req w l' eid hbody hok
    unfold createEvent at hok
    cases hcs : createStatements l uid req with
    | error e =>
        rw [hcs] at hok
        simp [Except.map] at hok
    | ok sr =>
        rw [hcs] at hok
        simp only [Except.map] at hok
        injection hok with hok
        have h1 : sr.1.foldl applyStatement l = l' := congrArg Prod.fst hok
        clear hok
        unfold createStatements at hcs
        rw [hbody] at hcs
        simp only at hcs
        split at hcs
        · exact absurd hcs (by simp)
        · split at hcs
          · exact absurd hcs (by simp)
          · split at hcs
            · exact absurd hcs (by simp)
            · split at hcs
              · exact absurd hcs (by simp)
              · split at hcs
                · exact absurd hcs (by simp)
                · injection hcs with hcs
                  rw [← hcs] at h1
                  simp only [List.foldl, applyStatement, List.append_assoc] at h1
                  rw [← h1]
                  rw [List.drop_left]
                  rw [List.filter_append, List.filter_cons, List.filter_nil,
                    List.filter_append, income_alloc_rows_filter,
                    List.filter_cons, List.filter_nil]
                  simp only [Bool.false_eq_true, if_false, eq_self_iff_true, if_true,
                    sumAmounts_append]
                  unfold sumAmounts
                  rw [income_alloc_rows_amounts]
                  simp only [List.map_nil, List.sum_nil, List.map_cons, List.sum_cons,
                    zero_add, add_zero]
                  exact allocateIncome_sum_total T _

/-- Witness for C2: income of 100 with a single 30% pull — allocations 30
and 70 sum back to 100. -/
theorem income_allocation_exact_witness :
    (0:ℚ) < 100 ∧ (∀ pr ∈ [((3:Nat), (30:ℚ))], 0 < pr.2) ∧
      (([((3:Nat), (30:ℚ))].map (·.2)).sum ≤ 100) ∧
      ((allocateIncome 100 [(3, 30)]).1.map fun a => a.2.2).sum +
        (allocateIncome 100 [(3, 30)]).2 = 100 := by
  refine ⟨by norm_num, by norm_num, by norm_num, ?_⟩
  exact (income_allocation_exact 100 [(3, 30)] (by norm_num) (by norm_num)
    (by norm_num)).2.2.1

/-! ## C10 — deleteEvent is not idempotent -/

/-- **C10.** The first `DELETE` on an active root event soft-deletes the
event row and all its children (setting `deletedAt`) and returns the event
id; a second `DELETE` on the same id returns 404 `Event not found` and
leaves the ledger unchanged, because the lookup excludes rows whose
`deletedAt` is set. -/
theorem delete_event_not_idempotent (l : Ledger) (uid eid : Nat) (now now2 : Int)
    (heid : eid ≠ 0) (hev : (findEvent l uid eid).isSome) :
    (deleteEvent013 l uid eid now).2 = .ok eid ∧
    (∀ p ∈ (deleteEvent013 l uid eid now).1.postings,
      p.userId = uid → (p.id = eid ∨ p.parentId = some eid) → p.deletedAt = some now) ∧
    deleteEvent013 (deleteEvent013 l uid eid now).1 uid eid now2 =
      ((deleteEvent013 l uid eid now).1, .error (.notFound "Event not found")) := by
  have h0 : (eid == 0) = false := by
    simpa using heid
  obtain ⟨ev, hev'⟩ := Option.isSome_iff_exists.mp hev
  have hr : deleteEvent013 l uid eid now =
      ({ l with postings := l.postings.map fun p =>
          if p.userId == uid && (p.id == eid || p.parentId == some eid) then
            { p with deletedAt := some now }
          else p }, .ok eid) := by
    unfold deleteEvent013
    rw [h0, hev']
    rfl
  refine ⟨by rw [hr], ?_, ?_⟩
  · intro p hp huid hid
    rw [hr] at hp
    simp only [List.mem_map] at hp
    obtain ⟨q, _, rfl⟩ := hp
    by_cases hc : (q.userId == uid && (q.id == eid || q.parentId == some eid)) = true
    · rw [if_pos hc]
    · rw [if_neg hc] at huid hid ⊢
      exact absurd (by simp [huid, hid]) hc
  · have hnone : findEvent (deleteEvent013 l uid eid now).1 uid eid = none := by
      unfold findEvent
      rw [List.find?_eq_none]
      intro p hp
      rw [hr] at hp
      simp only [List.mem_map] at hp
      obtain ⟨q, _, rfl⟩ := hp
      by_cases hc : (q.userId == uid && (q.id == eid || q.parentId == some eid)) = true
      · rw [if_pos hc]
        simp
      · rw [if_neg hc]
        intro hmatch
        simp only [Bool.and_eq_true, Bool.or_eq_true, beq_iff_eq] at hmatch hc
        tauto
    generalize hL : (deleteEvent013 l uid eid now).1 = L1 at hnone ⊢
    unfold deleteEvent013
    rw [h0, hnone]
    rfl

/-- Witness for C10 on a one-event ledger. -/
theorem delete_event_not_idempotent_witness :
    let l : Ledger :=
      { wallets := [], funds := []
        postings := [{ id := 1, userId := 1, occurredAt := 0, amount := 5 }]
        nextId := 2 }
    (1 : Nat) ≠ 0 ∧ (findEvent l 1 1).isSome ∧
      (deleteEvent013 l 1 1 4).2 = .ok 1 ∧
      deleteEvent013 (deleteEvent013 l 1 1 4).1 1 1 9 =
        ((deleteEvent013 l 1 1 4).1, .error (.notFound "Event not found")) := by
  intro l
  have h := delete_event_not_idempotent l 1 1 4 9 (by decide)
    (by norm_num [findEvent, List.find?])
  exact ⟨by decide, by norm_num [findEvent, List.find?], h.1, h.2.2⟩

/-! ## C9 — wallet/fund deletion balance check -/

/-- **C9 (counterexample).** The claim says a deletion request for a wallet
with *nonzero* with-pending balance fails and the wallet is not
soft-deleted.  A wallet whose balance is `10⁻¹⁰` (nonzero, but within the
route's `1e-9` tolerance) is soft-deleted successfully. -/
theorem wallet_delete_eps_counterexample :
    let l : Ledger :=
      { wallets := [{ id := 1, userId := 1, openingAmount := 1 / 10000000000 }]
        funds := [], postings := [], nextId := 2 }
    walletDeleteBalance l 1 1 (1 / 10000000000) ≠ 0 ∧
      (deleteWalletOp l 1 1 7).2 = .ok 1 ∧
      (deleteWalletOp l 1 1 7).1.wallets =
        [{ id := 1, userId := 1, openingAmount := 1 / 10000000000, deletedAt := some 7 }] := by
  intro l
  refine ⟨by norm_num [walletDeleteBalance, sumAmounts, l], ?_, ?_⟩ <;>
    norm_num [deleteWalletOp, walletDeleteBalance, sumAmounts, balanceEps, List.find?,
      walletGETJoin, abs_of_pos, l]

/-- **C9 (amended).** The wallet/fund deletion routes compare the
with-pending balance against the tolerance `1e-9`: a balance whose absolute
value exceeds `1e-9` yields a 400 `has balance` error with nothing
modified, and a balance within the tolerance (in particular exactly zero)
soft-deletes the entity by setting `deletedAt`, leaving every posting row
untouched. -/
theorem entity_delete_balance_check (l : Ledger) (uid : Nat) (now : Int) :
    (∀ wid w, wid ≠ 0 →
      (l.wallets.find? fun w' => w'.id == wid && w'.userId == uid && w'.deletedAt == none) =
        some w →
      (balanceEps < |walletDeleteBalance l uid wid w.openingAmount| →
        deleteWalletOp l uid wid now = (l, .error (.badRequest
          "Wallet has a non-zero balance. Move the money to another wallet, then try again."))) ∧
      (|walletDeleteBalance l uid wid w.openingAmount| ≤ balanceEps →
        (deleteWalletOp l uid wid now).2 = .ok wid ∧
        (deleteWalletOp l uid wid now).1.postings = l.postings ∧
        ∀ w' ∈ (deleteWalletOp l uid wid now).1.wallets,
          w'.id = wid → w'.deletedAt = some now)) ∧
    (∀ fid f, fid ≠ 0 →
      (l.funds.find? fun f' => f'.id == fid && f'.userId == uid && f'.deletedAt == none) =
        some f →
      f.kind = .regular →
      (balanceEps < |fundDeleteBalance l uid fid f.openingAmount| →
        deleteFundOp l uid fid now = (l, .error (.badRequest
          "Fund has a non-zero balance. Move the money to another fund, then try again."))) ∧
      (|fundDeleteBalance l uid fid f.openingAmount| ≤ balanceEps →
        (deleteFundOp l uid fid now).2 = .ok fid ∧
        (deleteFundOp l uid fid now).1.postings = l.postings ∧
        ∀ f' ∈ (deleteFundOp l uid fid now).1.funds,
          f'.id = fid → f'.deletedAt = some now)) := by
  constructor
  · intro wid w hwid hfind
    have h0 : (wid == 0) = false := by simpa using hwid
    constructor
    · intro hgt
      unfold deleteWalletOp
      rw [h0, hfind]
      simp only [Bool.false_eq_true, if_false]
      rw [if_pos hgt]
    · intro hle
      have hr : deleteWalletOp l uid wid now =
          ({ l with wallets := l.wallets.map fun w' =>
              if w'.id == wid then { w' with deletedAt := some now } else w' }, .ok wid) := by
        unfold deleteWalletOp
        rw [h0, hfind]
        simp only [Bool.false_eq_true, if_false]
        rw [if_neg (not_lt.mpr hle)]
      refine ⟨by rw [hr], by rw [hr], ?_⟩
      intro w' hw' hid
      rw [hr] at hw'
      simp only [List.mem_map] at hw'
      obtain ⟨q, _, rfl⟩ := hw'
      by_cases hc : (q.id == wid) = true
      · rw [if_pos hc]
      · rw [if_neg hc] at hid ⊢
        exact absurd (by simp [hid]) hc
  · intro fid f hfid hfind hkind
    have h0 : (fid == 0) = false := by simpa using hfid
    have hprot : (f.kind == FundKind.income || f.kind == FundKind.savings) = false := by
      rw [hkind]; rfl
    constructor
    · intro hgt
      unfold deleteFundOp
      rw [h0, hfind]
      simp only [Bool.false_eq_true, if_false, hprot]
      rw [if_pos hgt]
    · intro hle
      have hr : deleteFundOp l uid fid now =
          ({ l with funds := l.funds.map fun f' =>
              if f'.id == fid then { f' with deletedAt := some now } else f' }, .ok fid) := by
        unfold deleteFundOp
        rw [h0, hfind]
        simp only [Bool.false_eq_true, if_false, hprot]
        rw [if_neg (not_lt.mpr hle)]
      refine ⟨by rw [hr], by rw [hr], ?_⟩
      intro f' hf' hid
      rw [hr] at hf'
      simp only [List.mem_map] at hf'
      obtain ⟨q, _, rfl⟩ := hf'
      by_cases hc : (q.id == fid) = true
      · rw [if_pos hc]
      · rw [if_neg hc] at hid ⊢
        exact absurd (by simp [hid]) hc

/-- Witness for C9 (amended): a wallet with exactly zero balance is
soft-deleted. -/
theorem entity_delete_balance_check_witness :
    let l : Ledger :=
      { wallets := [{ id := 1, userId := 1, openingAmount := 0 }]
        funds := [], postings := [], nextId := 2 }
    (deleteWalletOp l 1 1 3).2 = .ok 1 ∧
      (deleteWalletOp l 1 1 3).1.postings = l.postings := by
  intro l
  have h := ((entity_delete_balance_check l 1 3).1 1
    { id := 1, userId := 1, openingAmount := 0 } (by decide)
    (by norm_num [List.find?])).2
    (by norm_num [walletDeleteBalance, sumAmounts, balanceEps, l])
  exact ⟨h.1, h.2.1⟩

/-! ## C3 — balance calculator and void postings -/

/-- **C3 (code divergence).** The wallet balance query joins on
`isPosting` and `deletedAt` only — it has no `status = 'posted'` condition —
while the fund balance query has one.  On a ledger holding one voided
posting (`status = 'void'`, `deletedAt = null`, the state the DELETE
handler of the same revision produces), the wallet listing still counts the
posting (balance 100) while the fund listing excludes it (balance 0),
contradicting the claim that both exclude void postings. -/
theorem wallet_balance_includes_void :
    let l : Ledger :=
      { wallets := [{ id := 1, userId := 1, openingAmount := 0 }]
        funds := [{ id := 1, userId := 1, openingAmount := 0 }]
        postings := [{ id := 5, userId := 1, occurredAt := 0, isPending := false
                       walletId := some 1, fundId := some 1, amount := 100
                       status := .void }]
        nextId := 6 }
    walletsGET l 1 =
      [{ id := 1, openingAmount := 0, balance := 100, balanceWithPending := 100 }] ∧
    fundsGET l 1 =
      [{ id := 1, openingAmount := 0, balance := 0, balanceWithPending := 0 }] := by
  intro l
  constructor <;>
    norm_num [walletsGET, fundsGET, walletGETJoin, fundGETJoin, sumAmounts, sumCleared,
      List.filter_cons, List.filter_nil, l] <;> simp

/-! ## C7 — create is not atomic -/

/-- **C7 (code divergence).** The income create path issues two separate
INSERT statements — the parent row, then the batch of allocation rows —
with no transaction wrapper.  After only the first statement executes, the
ledger contains the parent event with no allocation postings: an observable
partial event. -/
theorem income_create_two_statements :
    let l : Ledger :=
      { wallets := [{ id := 1, userId := 1, openingAmount := 0 }]
        funds := [{ id := 2, userId := 1, openingAmount := 0, isSavings := true },
                  { id := 3, userId := 1, openingAmount := 0, pullPercentage := 30 }]
        postings := [], nextId := 4 }
    let req : CreateReq := { occurredAt := 0, body := .income 1 100 }
    let s := (createStatements l 1 req).toOption.getD ([], 0)
    s.2 = 4 ∧ s.1.length = 2 ∧ s.1.getLastD [] ≠ [] ∧
    (let lp := applyStatement l s.1.headI
     (findEvent lp 1 4).isSome = true ∧
     lp.postings.filter (fun p => p.parentId == some 4) = []) := by
  intro l req s
  refine ⟨?_, ?_, ?_, ?_, ?_⟩ <;>
    norm_num [createStatements, applyStatement, findEvent, allocateIncome, ownedWallet,
      List.find?, Except.toOption, s, req, l] <;> simp

/-! ## C5 — overdraft side-postings -/

set_option maxHeartbeats 4000000 in
/-- **C5 (code divergence).** In the multi-line expense rebuild,
`fundBalanceCache` is never updated by repayment inserts.  Editing an event
into lines −15, +5, −3 against one regular fund with opening balance 10:
the first line overdraws (advance pair inserted, cache set to 0), the
second line repays the debt of 5 (repayment pair inserted — the true as-of
balance drops by 5 but the cache does not), so at the third line the code
sees a cached balance of 5, computes 5 − 3 ≥ 0, and inserts no advance
pair, although the line drives the fund's raw as-of balance to −3.  The
final ledger has the fund at −3 and only the first line's advance pair. -/
theorem overdraft_advance_missed_on_stale_cache :
    (patchEvent overdraftScenarioLedger 1 4 overdraftScenarioReq).2 = .ok 4 ∧
    getFundBalanceAsOf (patchEvent overdraftScenarioLedger 1 4 overdraftScenarioReq).1
      1 3 0 = .ok (-3) ∧
    ((patchEvent overdraftScenarioLedger 1 4 overdraftScenarioReq).1.postings.filter
      fun p => p.postingKind == .overdraftAdvance).length = 2 := by
  refine ⟨?_, ?_, ?_⟩ <;>
    · iterate 12
        try first
          | rfl
          | (simp +decide [patchEvent, ensureSystemFunds, fundKindOfAll, findEvent,
              rebuildBase, patchExpense, parseLines, parseLine, ownedWallet, ownedFund,
              patchSingleLine, expenseLineStep, repayStep, pushRow, cacheGet, cacheSet,
              getFundBalanceAsOf, getOverdraftDebtAsOf, sumAmounts, List.find?,
              List.filter_cons, List.filter_nil, List.foldl, min_def, max_def,
              beq_fundKind, beq_txStatus, beq_postingKind,
              overdraftScenarioLedger, overdraftScenarioReq])
          | norm_num

/-! ## C8 — edits and posting-row retention -/

/-- **C8 (counterexample).** Editing an income event's amount (a change of
income parameters, not a metadata-only edit) updates the existing
allocation posting rows' `amount` and `walletId` in place: row 5 keeps its
id, stays `posted` and non-deleted, and its amount changes from 30 to 60;
no replacement row is inserted.  This contradicts the claim that such
edits never mutate money-bearing fields of existing rows. -/
theorem income_edit_updates_amount_in_place :
    (patch013 incomeEditLedger 1 4 incomeEditReq).2 = .ok 4 ∧
    ((patch013 incomeEditLedger 1 4 incomeEditReq).1.postings.find? fun p => p.id == 5) =
      some { id := 5, userId := 1, parentId := some 4, occurredAt := 0
             incomePull := some 30, walletId := some 1, fundId := some 3
             amount := 60 } ∧
    (incomeEditLedger.postings.find? fun p => p.id == 5) =
      some { id := 5, userId := 1, parentId := some 4, occurredAt := 0
             incomePull := some 30, walletId := some 1, fundId := some 3
             amount := 30 } ∧
    (patch013 incomeEditLedger 1 4 incomeEditReq).1.postings.length =
      incomeEditLedger.postings.length := by
  refine ⟨?_, ?_, ?_, ?_⟩ <;>
    · iterate 8
        try first
          | rfl
          | (simp +decide [patch013, findEvent, sortById, insertById, allocateIncome,
              ownedWallet, List.find?, List.filter_cons, List.filter_nil,
              beq_fundKind, beq_txStatus, beq_postingKind,
              incomeEditLedger, incomeEditReq])
          | norm_num

/-! Helper lemmas: every write stage of the edit/delete handlers either
updates rows in place (keeping their ids) or appends new rows. -/

theorem map_eq_of_pointwise {α β : Type _} (f g : α → β) (h : ∀ a, f a = g a) :
    ∀ xs : List α, xs.map f = xs.map g := by
  intro xs
  induction xs with
  | nil => rfl
  | cons x xs ih => simp only [List.map_cons, h, ih]

theorem ids_extend_push (base : List Nat) (l : Ledger) (mk : Nat → Posting)
    (h : ∃ t, l.postings.map (·.id) = base ++ t) :
    ∃ t, (pushRow l mk).postings.map (·.id) = base ++ t := by
  obtain ⟨t, ht⟩ := h
  exact ⟨t ++ [(mk l.nextId).id], by simp [pushRow, ht]⟩

theorem ids_extend_map (base : List Nat) (ps : List Posting) (F : Posting → Posting)
    (hF : ∀ p, (F p).id = p.id)
    (h : ∃ t, ps.map (·.id) = base ++ t) :
    ∃ t, (ps.map F).map (·.id) = base ++ t := by
  obtain ⟨t, ht⟩ := h
  refine ⟨t, ?_⟩
  rw [List.map_map]
  have hc : ((fun x => x.id) ∘ F) = fun p : Posting => p.id := funext hF
  rw [hc, ht]

theorem ids_extend_foldl {α β : Type _} (step : (Ledger × β) → α → Ledger × β)
    (hstep : ∀ acc x, ∃ t, ((step acc x).1.postings.map (·.id)) =
      acc.1.postings.map (·.id) ++ t) :
    ∀ (xs : List α) (acc : Ledger × β) (base : List Nat),
      (∃ t, acc.1.postings.map (·.id) = base ++ t) →
      ∃ t, ((xs.foldl step acc).1.postings.map (·.id)) = base ++ t := by
  intro xs
  induction xs with
  | nil =>
      intro acc base h
      simpa using h
  | cons x xs ih =>
      intro acc base h
      rw [List.foldl_cons]
      obtain ⟨t, ht⟩ := h
      obtain ⟨t2, ht2⟩ := hstep acc x
      exact ih (step acc x) base ⟨t ++ t2, by rw [ht2, ht, List.append_assoc]⟩

theorem repayStep_extends (uid eid sf : Nat) (t0 : Int) (line : ParsedLine)
    (fid : Nat) (l : Ledger) (c : List (Nat × ℚ)) (base : List Nat)
    (h : ∃ t, l.postings.map (·.id) = base ++ t) :
    ∃ t, ((repayStep uid eid sf t0 line fid l c).1.postings.map (·.id)) = base ++ t := by
  unfold repayStep
  repeat' first
    | split
    | simp only []
  all_goals
    repeat first
      | exact h
      | apply ids_extend_push

theorem incomeAllocStep_extends (uid eid sf : Nat) (t0 : Int) (pend : Bool)
    (kindOf : Nat → Option FundKind) (w : Nat)
    (acc : Ledger × List (Nat × ℚ)) (a : Nat × ℚ × ℚ) :
    ∃ t, ((incomeAllocStep uid eid sf t0 pend kindOf w acc a).1.postings.map (·.id)) =
      acc.1.postings.map (·.id) ++ t := by
  unfold incomeAllocStep
  repeat' first
    | split
    | simp only []
  all_goals
    repeat first
      | exact ⟨[], (List.append_nil _).symm⟩
      | apply ids_extend_push

theorem expenseLineStep_extends (uid eid sf : Nat) (t0 : Int)
    (kindOf : Nat → Option FundKind)
    (acc : Ledger × List (Nat × ℚ) × List (Nat × ℚ) × Option ApiErr)
    (line : ParsedLine) :
    ∃ t, ((expenseLineStep uid eid sf t0 kindOf acc line).1.postings.map (·.id)) =
      acc.1.postings.map (·.id) ++ t := by
  unfold expenseLineStep
  repeat' first
    | split
    | simp only []
  all_goals
    repeat first
      | exact ⟨[], (List.append_nil _).symm⟩
      | apply ids_extend_push
      | apply repayStep_extends

theorem patchSingleLine_extends (l2 : Ledger) (uid eid sf : Nat) (t0 : Int)
    (kindOf : Nat → Option FundKind) (line : ParsedLine) (base : List Nat)
    (h : ∃ t, l2.postings.map (·.id) = base ++ t) :
    ∃ t, ((patchSingleLine l2 uid eid sf t0 kindOf line).1.postings.map (·.id)) =
      base ++ t := by
  unfold patchSingleLine
  repeat' first
    | split
    | simp only []
  all_goals
    repeat first
      | exact h
      | apply ids_extend_push
      | (apply ids_extend_map _ _ _ (fun p => ?_) h
         repeat' split
         all_goals rfl)
      | (rename_i r heq
         split at heq
         · cases heq
           repeat first
             | exact h
             | apply ids_extend_push
         · exact Option.noConfusion heq)

theorem patchIncome_extends (l2 : Ledger) (uid eid sf : Nat) (t0 : Int)
    (pend : Bool) (kindOf : Nat → Option FundKind)
    (snap : List (Option Nat × Option ℚ)) (wq : Option Nat) (aq : Option ℚ)
    (base : List Nat) (h : ∃ t, l2.postings.map (·.id) = base ++ t) :
    ∃ t, ((patchIncome l2 uid eid sf t0 pend kindOf snap wq aq).1.postings.map (·.id)) =
      base ++ t := by
  unfold patchIncome
  repeat' first
    | split
    | simp only []
  all_goals
    repeat first
      | exact h
      | apply ids_extend_push
      | exact ids_extend_foldl _ (incomeAllocStep_extends uid eid sf t0 pend kindOf _) _ _ _ h

theorem patchExpense_extends (l2 : Ledger) (uid eid sf : Nat) (t0 : Int)
    (pend : Bool) (linesOpt : Option (List LineInput)) (base : List Nat)
    (h : ∃ t, l2.postings.map (·.id) = base ++ t) :
    ∃ t, ((patchExpense l2 uid eid sf t0 pend linesOpt).1.postings.map (·.id)) =
      base ++ t := by
  unfold patchExpense
  repeat' first
    | split
    | simp only []
  all_goals
    repeat first
      | exact h
      | apply patchSingleLine_extends _ _ _ _ _ _ _ _ h
      | exact ids_extend_foldl _ (expenseLineStep_extends uid eid sf t0 _) _ _ _ h

set_option maxHeartbeats 1600000 in
/-- No stage of the PATCH handler removes a posting row: the old id list is
a prefix of the new one. -/
theorem patchEvent_extends (l : Ledger) (uid eid : Nat) (req : PatchReq) :
    ∃ t, ((patchEvent l uid eid req).1.postings.map (·.id)) =
      l.postings.map (·.id) ++ t := by
  unfold patchEvent
  repeat' first
    | split
    | simp only []
  all_goals
    first
      | exact ⟨[], (List.append_nil _).symm⟩
      | (apply ids_extend_map _ _ _ (fun p => ?_) ⟨[], (List.append_nil _).symm⟩
         repeat' split
         all_goals rfl)
      | (apply patchIncome_extends
         unfold rebuildBase
         apply ids_extend_map _ _ _ (fun p => ?_) ⟨[], (List.append_nil _).symm⟩
         repeat' split
         all_goals rfl)
      | (apply patchExpense_extends
         unfold rebuildBase
         apply ids_extend_map _ _ _ (fun p => ?_) ⟨[], (List.append_nil _).symm⟩
         repeat' split
         all_goals rfl)

theorem ids_extend_foldl2 {α : Type _} (step : Ledger → α → Ledger)
    (hstep : ∀ acc x, ∃ t, ((step acc x).postings.map (·.id)) =
      acc.postings.map (·.id) ++ t) :
    ∀ (xs : List α) (acc : Ledger) (base : List Nat),
      (∃ t, acc.postings.map (·.id) = base ++ t) →
      ∃ t, ((xs.foldl step acc).postings.map (·.id)) = base ++ t := by
  intro xs
  induction xs with
  | nil =>
      intro acc base h
      simpa using h
  | cons x xs ih =>
      intro acc base h
      rw [List.foldl_cons]
      obtain ⟨t, ht⟩ := h
      obtain ⟨t2, ht2⟩ := hstep acc x
      exact ih (step acc x) base ⟨t ++ t2, by rw [ht2, ht, List.append_assoc]⟩

theorem softDeleteRows_id (uid : Nat) (ids : List Nat) (now : Int)
    (p : Posting) : (softDeleteRows uid ids now p).id = p.id := by
  unfold softDeleteRows
  split
  all_goals rfl

theorem lineifyEvent013_id (uid eid : Nat) (t0 : Int) (d : Option String)
    (line : ParsedLine013) (p : Posting) :
    (lineifyEvent013 uid eid t0 d line p).id = p.id := by
  unfold lineifyEvent013
  split
  all_goals rfl

theorem parentifyEvent013_id (uid eid : Nat) (t0 : Int) (d : Option String)
    (pend : Bool) (p : Posting) :
    (parentifyEvent013 uid eid t0 d pend p).id = p.id := by
  unfold parentifyEvent013
  split
  all_goals rfl

theorem updateChildFromLine013_id (uid : Nat) (t0 : Int)
    (parsed : List ParsedLine013) (p : Posting) :
    (updateChildFromLine013 uid t0 parsed p).id = p.id := by
  unfold updateChildFromLine013
  repeat' split
  all_goals rfl

set_option maxHeartbeats 3200000 in
/-- The income and metadata branches of the earlier PATCH handler keep
exactly the existing posting rows: they only map over them in place. -/
theorem patch013_ids (l : Ledger) (uid eid : Nat) (req : Patch013Req) :
    (patch013 l uid eid req).1.postings.map (·.id) = l.postings.map (·.id) := by
  unfold patch013
  repeat' first
    | split
    | simp only []
  all_goals
    first
      | rfl
      | (rw [List.map_map]
         apply map_eq_of_pointwise
         intro p
         simp only [Function.comp_apply]
         repeat' split
         all_goals rfl)
      | (rw [List.map_map, List.map_map]
         apply map_eq_of_pointwise
         intro p
         simp only [Function.comp_apply]
         repeat' split
         all_goals rfl)

set_option maxHeartbeats 1600000 in
/-- The lines-rebuild branch never removes a posting row: it updates or
soft-deletes existing rows in place and appends inserted lines, so the old
id list is a prefix of the new one. -/
theorem rebuild013_extends (l : Ledger) (uid eid : Nat) (event : Posting)
    (t0 : Int) (d : Option String) (pend : Bool) (now : Int)
    (parsed : List ParsedLine013) :
    ∃ t, ((rebuild013 l uid eid event t0 d pend now parsed).1.postings.map
      (·.id)) = l.postings.map (·.id) ++ t := by
  unfold rebuild013
  repeat' first
    | split
    | simp only []
  all_goals
    repeat first
      | exact ⟨[], (List.append_nil _).symm⟩
      | apply ids_extend_push
      | apply ids_extend_foldl2 _ (fun acc x =>
          ids_extend_push _ _ _ ⟨[], (List.append_nil _).symm⟩)
      | apply ids_extend_map _ _ _ (fun p => softDeleteRows_id _ _ _ p)
      | apply ids_extend_map _ _ _ (fun p => lineifyEvent013_id _ _ _ _ _ p)
      | apply ids_extend_map _ _ _ (fun p => parentifyEvent013_id _ _ _ _ _ p)
      | apply ids_extend_map _ _ _ (fun p => updateChildFromLine013_id _ _ _ p)

set_option maxHeartbeats 1600000 in
/-- The earlier revision's whole PATCH handler never removes a posting
row. -/
theorem patch013Full_extends (l : Ledger) (uid eid : Nat) (now : Int)
    (req : Patch013FullReq) :
    ∃ t, ((patch013Full l uid eid now req).1.postings.map (·.id)) =
      l.postings.map (·.id) ++ t := by
  unfold patch013Full
  repeat' first
    | split
    | simp only []
  all_goals
    first
      | exact ⟨[], (List.append_nil _).symm⟩
      | (refine ⟨[], ?_⟩
         rw [patch013_ids, List.append_nil])
      | apply rebuild013_extends

set_option maxHeartbeats 1600000 in
/-- Without a `lines` array the whole handler reduces to the income or
metadata branch, which keeps exactly the existing rows. -/
theorem patch013Full_lines_none_ids (l : Ledger) (uid eid : Nat) (now : Int)
    (req : Patch013FullReq) (hln : req.lines = none) :
    (patch013Full l uid eid now req).1.postings.map (·.id) =
      l.postings.map (·.id) := by
  unfold patch013Full
  rw [hln]
  repeat' first
    | simp only []
    | split
  all_goals
    first
      | rfl
      | exact patch013_ids l uid eid _

/-- **C8 (amended).** Edits and deletes never remove posting rows.
`DELETE` leaves every row's id and money-bearing fields (`amount`,
`walletId`, `fundId`, `incomePull`) unchanged, setting only deletion
markers.  The earlier revision's edit handler never removes a row: its
income and metadata branches (every body without a `lines` array) keep
exactly the existing rows, updating them in place — including, for income
edits, their `amount` and `walletId` — and its lines-rebuild branch only
updates or soft-deletes existing rows in place and inserts replacement
lines as new rows, so on every body the old id list is a prefix of the new
one.  The overdraft revision's edit handler likewise only updates rows in
place or appends new rows.  (As the counterexample shows, the original
claim's stronger statement — that money-bearing fields are never updated
in place outside metadata-only edits — does not hold.) -/
theorem edits_retain_posting_rows (l : Ledger) (uid eid : Nat) (now : Int)
    (req : Patch013FullReq) (preq : PatchReq) :
    ((deleteEvent013 l uid eid now).1.postings.map fun p =>
        (p.id, p.amount, p.walletId, p.fundId, p.incomePull)) =
      (l.postings.map fun p => (p.id, p.amount, p.walletId, p.fundId, p.incomePull)) ∧
    (∃ t, (patch013Full l uid eid now req).1.postings.map (·.id) =
      l.postings.map (·.id) ++ t) ∧
    (req.lines = none →
      (patch013Full l uid eid now req).1.postings.map (·.id) =
        l.postings.map (·.id)) ∧
    (∃ t, (patchEvent l uid eid preq).1.postings.map (·.id) =
      l.postings.map (·.id) ++ t) := by
  refine ⟨?_, patch013Full_extends l uid eid now req,
    fun hln => patch013Full_lines_none_ids l uid eid now req hln,
    patchEvent_extends l uid eid preq⟩
  unfold deleteEvent013
  repeat' first
    | split
    | simp only []
  all_goals
    first
      | rfl
      | (rw [List.map_map]
         apply map_eq_of_pointwise
         intro p
         simp only [Function.comp_apply]
         repeat' split
         all_goals rfl)

/-- Witness: a body with no `lines` array (here: the empty body) leaves
the id list of the concrete income event's ledger exactly unchanged. -/
theorem edits_retain_posting_rows_witness :
    ({} : Patch013FullReq).lines = none ∧
    (patch013Full incomeEditLedger 1 4 0 {}).1.postings.map (·.id) =
      incomeEditLedger.postings.map (·.id) :=
  ⟨rfl, (edits_retain_posting_rows incomeEditLedger 1 4 0 {} {}).2.2.1 rfl⟩

/-! Helper lemmas for the income snapshot-replay claim: `sortById` is a
permutation, `find?` by id is exact on lists with nodup ids, and the edit
handler never reads `pullPercentage`. -/

theorem insertById_perm (p : Posting) : ∀ qs, (insertById p qs).Perm (p :: qs)
  | [] => List.Perm.refl _
  | q :: qs => by
      unfold insertById
      split
      · exact List.Perm.refl _
      · exact ((insertById_perm p qs).cons q).trans (List.Perm.swap p q qs)

theorem sortById_perm : ∀ ps, (sortById ps).Perm ps
  | [] => List.Perm.refl _
  | p :: ps => by
      show (insertById p (sortById ps)).Perm (p :: ps)
      exact (insertById_perm p (sortById ps)).trans ((sortById_perm ps).cons p)

theorem mem_sortById {q : Posting} {ps : List Posting} (h : q ∈ sortById ps) :
    q ∈ ps :=
  (sortById_perm ps).mem_iff.mp h

theorem nodup_ids_sortById {ps : List Posting}
    (h : (ps.map (·.id)).Nodup) : ((sortById ps).map (·.id)).Nodup :=
  (((sortById_perm ps).map (·.id)).nodup_iff).mpr h

theorem nodup_ids_filter {ps : List Posting} (pr : Posting → Bool)
    (h : (ps.map (·.id)).Nodup) : ((ps.filter pr).map (·.id)).Nodup :=
  h.sublist ((ps.filter_sublist).map (·.id))

/-- In a list of postings with nodup ids, looking a member up by its id
finds exactly it. -/
theorem find_by_id_of_mem : ∀ (ps : List Posting),
    ((ps.map (·.id)).Nodup) → ∀ q ∈ ps, ps.find? (fun x => x.id == q.id) = some q
  | [], _, q, hq => absurd hq (List.not_mem_nil q)
  | p :: ps, hnd, q, hq => by
      rw [List.map_cons] at hnd
      rcases List.mem_cons.mp hq with h | h
      · subst h
        rw [List.find?_cons_of_pos _ (by simp)]
      · have hne : (p.id == q.id) = false := by
          apply beq_eq_false_iff_ne.mpr
          intro hc
          exact (List.nodup_cons.mp hnd).1 (hc ▸ List.mem_map_of_mem (·.id) h)
        rw [List.find?_cons_of_neg _ (by simp [hne])]
        exact find_by_id_of_mem ps (List.nodup_cons.mp hnd).2 q h

/-- Looking up an id in the list from which that id was filtered out finds
nothing. -/
theorem find_filtered_id_none (ps : List Posting) (k : Nat) :
    ((ps.filter fun q => q.id != k).find? fun q => q.id == k) = none := by
  apply List.find?_eq_none.mpr
  intro x hx
  have := List.of_mem_filter hx
  simpa using this

theorem find_savings_pullMap (g : Nat → ℚ) (uid : Nat) (fs : List Fund) :
    ((fs.map fun f =>
        { f with pullPercentage := g f.id }).find? fun f =>
        f.userId == uid && f.isSavings && f.deletedAt == none).map (fun f => f.id) =
      (fs.find? fun f =>
        f.userId == uid && f.isSavings && f.deletedAt == none).map (fun f => f.id) := by
  rw [List.find?_map, Option.map_map]
  have hpred : ((fun f : Fund => f.userId == uid && f.isSavings && f.deletedAt == none) ∘
      fun f : Fund => { f with pullPercentage := g f.id }) =
      fun f : Fund => f.userId == uid && f.isSavings && f.deletedAt == none :=
    funext fun _ => rfl
  have hid : ((fun f : Fund => f.id) ∘
      fun f : Fund => { f with pullPercentage := g f.id }) =
      fun f : Fund => f.id :=
    funext fun _ => rfl
  rw [hpred, hid]

set_option maxHeartbeats 1600000 in
/-- The earlier PATCH handler never consults the funds' live
`pullPercentage`: rewriting every fund's `pullPercentage` commutes with the
whole handler and leaves its verdict unchanged. -/
theorem patch013_pullMap (g : Nat → ℚ) (l : Ledger) (uid eid : Nat)
    (req : Patch013Req) :
    patch013 (pullMap g l) uid eid req =
      (pullMap g (patch013 l uid eid req).1, (patch013 l uid eid req).2) := by
  have h1 : findEvent (pullMap g l) uid eid = findEvent l uid eid := rfl
  have h2 : (pullMap g l).postings = l.postings := rfl
  have h3 : ∀ w, ownedWallet (pullMap g l) uid w = ownedWallet l uid w := fun _ => rfl
  have h4 : (pullMap g l).funds =
      l.funds.map fun f => { f with pullPercentage := g f.id } := rfl
  have h5 : (pullMap g l).wallets = l.wallets := rfl
  have h6 : (pullMap g l).nextId = l.nextId := rfl
  unfold patch013
  simp only [h1, h2, h3, h4, h5, h6, find_savings_pullMap]
  by_cases h0 : (eid == 0) = true
  · rw [if_pos h0, if_pos h0]
  · rw [if_neg h0, if_neg h0]
    rcases hev : findEvent l uid eid with _ | event
    · rfl
    · simp only []
      by_cases hty : (req.type == some "income" ||
          !event.isPosting && (List.filter (fun p =>
            p.userId == uid && p.parentId == some eid && p.isPosting &&
              p.deletedAt == none) l.postings).any fun p =>
                p.incomePull != none) = true
      · rw [if_pos hty, if_pos hty]
        by_cases hw : (req.walletId.getD 0 == 0) = true
        · rw [if_pos hw, if_pos hw]
        · rw [if_neg hw, if_neg hw]
          by_cases ha : req.amount.getD 0 ≤ 0
          · rw [if_pos ha, if_pos ha]
          · rw [if_neg ha, if_neg ha]
            by_cases ho : (!ownedWallet l uid (req.walletId.getD 0)) = true
            · rw [if_pos ho, if_pos ho]
            · rw [if_neg ho, if_neg ho]
              generalize Option.map (fun x => x.id)
                  (List.find? (fun f =>
                    f.userId == uid && f.isSavings && f.deletedAt == none)
                    l.funds) = sv
              rcases sv with _ | sid
              · rfl
              · simp only []
                by_cases hemp : (sortById (List.filter (fun p =>
                    p.incomePull != none) (List.filter (fun p =>
                      p.userId == uid && p.parentId == some eid && p.isPosting &&
                        p.deletedAt == none) l.postings))).isEmpty = true
                · rw [if_pos hemp, if_pos hemp]
                  rfl
                · rw [if_neg hemp, if_neg hemp]
                  generalize List.find? (fun p => p.fundId == some sid)
                      (sortById (List.filter (fun p =>
                        p.incomePull != none) (List.filter (fun p =>
                          p.userId == uid && p.parentId == some eid && p.isPosting &&
                            p.deletedAt == none) l.postings))) = fv
                  rcases fv with _ | sp
                  · rfl
                  · rfl
      · rw [if_neg hty, if_neg hty]
        rfl

theorem metaTouch013_fields (uid eid : Nat) (t0 : Int) (d : Option String)
    (pend : Bool) (p : Posting) :
    (metaTouch013 uid eid t0 d pend p).id = p.id ∧
    (metaTouch013 uid eid t0 d pend p).userId = p.userId ∧
    (metaTouch013 uid eid t0 d pend p).incomePull = p.incomePull := by
  unfold metaTouch013
  repeat' split
  all_goals exact ⟨rfl, rfl, rfl⟩

theorem reallocRow013_hit (uid w : Nat) (T : ℚ) (ns : List Posting) (spId : Nat)
    (rem : ℚ) (p q : Posting) (hu : (p.userId == uid) = true)
    (hf : ns.find? (fun r => r.id == p.id) = some q) :
    reallocRow013 uid w T ns spId rem p =
      { p with walletId := some w, amount := T * q.incomePull.getD 0 / 100 } := by
  unfold reallocRow013
  rw [if_pos hu, hf]

theorem reallocRow013_savings (uid w : Nat) (T : ℚ) (ns : List Posting)
    (spId : Nat) (rem : ℚ) (p : Posting) (hu : (p.userId == uid) = true)
    (hf : ns.find? (fun r => r.id == p.id) = none)
    (hid : (p.id == spId) = true) :
    reallocRow013 uid w T ns spId rem p =
      { p with walletId := some w, amount := rem } := by
  unfold reallocRow013
  rw [if_pos hu, hf]
  simp only []
  rw [if_pos hid]

set_option maxHeartbeats 1600000 in
/-- **C6.** When the earlier revision's PATCH handler edits an income event
changing only amount, date, or destination wallet (no `lines`), the new
allocation amounts are recomputed from the `incomePull` percentages stored
on the event's existing allocation postings: every non-savings allocation
row's amount becomes `T * storedPct / 100`, the savings allocation row's
amount becomes the literal remainder, and the funds' live `pullPercentage`
configuration is never consulted (rewriting every fund's `pullPercentage`
commutes with the handler). -/
theorem income_edit_replays_snapshot (l : Ledger) (uid eid w : Nat) (T : ℚ)
    (req : Patch013Req) (sid : Nat) (event sp : Posting)
    (hnd : (l.postings.map fun p => p.id).Nodup)
    (h0 : (eid == 0) = false)
    (hev : findEvent l uid eid = some event)
    (hty : req.type = some "income")
    (hw : req.walletId = some w) (hw0 : (w == 0) = false)
    (hT : req.amount = some T) (hTpos : 0 < T)
    (hown : ownedWallet l uid w = true)
    (hsav : (l.funds.find? fun f =>
        f.userId == uid && f.isSavings && f.deletedAt == none).map
          (fun f => f.id) = some sid)
    (hsp : (allocationPostingsOf l uid eid).find?
        (fun p => p.fundId == some sid) = some sp) :
    (patch013 l uid eid req).2 = .ok eid ∧
    (∀ q ∈ allocationPostingsOf l uid eid, (q.id == sp.id) = false →
      ∃ p ∈ (patch013 l uid eid req).1.postings,
        p.id = q.id ∧ p.walletId = some w ∧
        p.amount = T * q.incomePull.getD 0 / 100) ∧
    (∃ p ∈ (patch013 l uid eid req).1.postings,
      p.id = sp.id ∧ p.walletId = some w ∧
      p.amount = T - (((allocationPostingsOf l uid eid).filter fun q =>
        q.id != sp.id).map fun q => T * q.incomePull.getD 0 / 100).sum) ∧
    (∀ g : Nat → ℚ, patch013 (pullMap g l) uid eid req =
      (pullMap g (patch013 l uid eid req).1, (patch013 l uid eid req).2)) := by
  have hTn : ¬ T ≤ 0 := not_le.mpr hTpos
  have hne : ¬((allocationPostingsOf l uid eid).isEmpty = true) := by
    intro hc
    rcases hE : allocationPostingsOf l uid eid with _ | ⟨a, as⟩
    · rw [hE] at hsp
      exact Option.noConfusion hsp
    · rw [hE] at hc
      exact Bool.noConfusion hc
  obtain ⟨t0, ht0⟩ : ∃ x, req.occurredAt.getD event.occurredAt = x := ⟨_, rfl⟩
  obtain ⟨dsc, hdsc⟩ : ∃ x, (match req.description with
    | none => event.description
    | some d => d) = x := ⟨_, rfl⟩
  obtain ⟨pnd, hpnd⟩ : ∃ x, req.isPending.getD event.isPending = x := ⟨_, rfl⟩
  obtain ⟨ns, hns⟩ : ∃ x, (allocationPostingsOf l uid eid).filter
    (fun q => q.id != sp.id) = x := ⟨_, rfl⟩
  obtain ⟨rem, hrem⟩ : ∃ x, (allocateIncome T (ns.map fun q =>
    (q.id, q.incomePull.getD 0))).2 = x := ⟨_, rfl⟩
  have hred : patch013 l uid eid req =
      ({ l with postings := (l.postings.map
                    (metaTouch013 uid eid t0 dsc pnd)).map
                    (reallocRow013 uid w T ns sp.id rem) }, .ok eid) := by
    unfold patch013
    rw [if_neg (by simp [h0]), hev]
    simp only []
    rw [hty]
    rw [if_pos (by simp)]
    rw [hw]
    simp only [Option.getD_some]
    rw [if_neg (by simp [hw0])]
    rw [hT]
    simp only [Option.getD_some]
    rw [if_neg hTn]
    rw [hown]
    rw [if_neg (by simp)]
    rw [hsav]
    simp only []
    rw [if_neg hne]
    rw [hsp]
    simp only []
    rw [ht0, hdsc, hpnd, hns, hrem]
    rfl
  have hmemL : ∀ r ∈ allocationPostingsOf l uid eid, r ∈ l.postings := by
    intro r hr
    exact List.mem_of_mem_filter (List.mem_of_mem_filter (mem_sortById hr))
  have huserOf : ∀ r ∈ allocationPostingsOf l uid eid, (r.userId == uid) = true := by
    intro r hr
    have h2 := List.of_mem_filter (List.mem_of_mem_filter (mem_sortById hr))
    simp only [Bool.and_eq_true] at h2
    exact h2.1.1.1
  have hns_nd : (ns.map fun p => p.id).Nodup := by
    rw [← hns]
    apply nodup_ids_filter
    apply nodup_ids_sortById
    apply nodup_ids_filter
    apply nodup_ids_filter
    exact hnd
  have hmemsp : sp ∈ allocationPostingsOf l uid eid := List.mem_of_find?_eq_some hsp
  refine ⟨by rw [hred], ?_, ?_, fun g => patch013_pullMap g l uid eid req⟩
  · intro q hq hqsp
    have hql : q ∈ l.postings := hmemL q hq
    have hqu : (q.userId == uid) = true := huserOf q hq
    have hq_ns : q ∈ ns := by
      rw [← hns]
      refine List.mem_filter.mpr ⟨hq, ?_⟩
      simp only [bne_iff_ne, ne_eq]
      exact beq_eq_false_iff_ne.mp hqsp
    have hfq : (ns.find? fun x => x.id == q.id) = some q :=
      find_by_id_of_mem _ hns_nd q hq_ns
    have hmt := metaTouch013_fields uid eid t0 dsc pnd q
    have hmu : ((metaTouch013 uid eid t0 dsc pnd q).userId == uid) = true := by
      rw [hmt.2.1]
      exact hqu
    have hmf : (ns.find? fun x =>
        x.id == (metaTouch013 uid eid t0 dsc pnd q).id) = some q := by
      rw [hmt.1]
      exact hfq
    rw [hred]
    refine ⟨_, List.mem_map_of_mem _ (List.mem_map_of_mem _ hql), ?_, ?_, ?_⟩
    · rw [reallocRow013_hit _ _ _ _ _ _ _ _ hmu hmf, hmt.1]
    · rw [reallocRow013_hit _ _ _ _ _ _ _ _ hmu hmf]
    · rw [reallocRow013_hit _ _ _ _ _ _ _ _ hmu hmf]
  · have hspl : sp ∈ l.postings := hmemL sp hmemsp
    have hspu : (sp.userId == uid) = true := huserOf sp hmemsp
    have hmt := metaTouch013_fields uid eid t0 dsc pnd sp
    have hmu : ((metaTouch013 uid eid t0 dsc pnd sp).userId == uid) = true := by
      rw [hmt.2.1]
      exact hspu
    have hmf : (ns.find? fun x =>
        x.id == (metaTouch013 uid eid t0 dsc pnd sp).id) = none := by
      rw [hmt.1, ← hns]
      exact find_filtered_id_none (allocationPostingsOf l uid eid) sp.id
    have hmid : ((metaTouch013 uid eid t0 dsc pnd sp).id == sp.id) = true := by
      rw [hmt.1]
      simp
    rw [hred]
    refine ⟨_, List.mem_map_of_mem _ (List.mem_map_of_mem _ hspl), ?_, ?_, ?_⟩
    · rw [reallocRow013_savings _ _ _ _ _ _ _ hmu hmf hmid, hmt.1]
    · rw [reallocRow013_savings _ _ _ _ _ _ _ hmu hmf hmid]
    · rw [reallocRow013_savings _ _ _ _ _ _ _ hmu hmf hmid]
      rw [← hrem, ← hns]
      simp only [allocateIncome, List.map_map]
      rfl

/-- Witness: on the concrete stored income event (parent 4, allocation
rows 5 and 6), editing the amount to 200 succeeds. -/
theorem income_edit_replays_snapshot_witness :
    (patch013 incomeEditLedger 1 4
      { walletId := some 1, amount := some 200, type := some "income" }).2 =
      .ok 4 :=
  (income_edit_replays_snapshot incomeEditLedger 1 4 1 200
    { walletId := some 1, amount := some 200, type := some "income" } 2
    { id := 4, userId := 1, occurredAt := 0, isPosting := false, amount := 0 }
    { id := 6, userId := 1, parentId := some 4, occurredAt := 0,
      incomePull := some 70, walletId := some 1, fundId := some 2, amount := 70 }
    (by decide) (by decide) (by rfl) rfl rfl (by decide) rfl (by norm_num)
    (by rfl) (by rfl) (by rfl)).1

/-! Helper lemmas for the cross-check invariant. -/

theorem walletSide_applyStatement (l : Ledger) (uid : Nat) (rows : List Posting) :
    walletSide (applyStatement l rows) uid =
      walletSide l uid + (rows.map (wContrib l.wallets uid)).sum := by
  simp only [walletSide, applyStatement, List.map_append, List.sum_append]
  ring

theorem fundSide_applyStatement (l : Ledger) (uid : Nat) (rows : List Posting) :
    fundSide (applyStatement l rows) uid =
      fundSide l uid + (rows.map (fContrib l.funds uid)).sum := by
  simp only [fundSide, applyStatement, List.map_append, List.sum_append]
  ring

theorem applyStatement_wallets (l : Ledger) (rows : List Posting) :
    (applyStatement l rows).wallets = l.wallets := rfl

theorem applyStatement_funds (l : Ledger) (rows : List Posting) :
    (applyStatement l rows).funds = l.funds := rfl

/-- A two-sided active row of the user contributes its amount to both
sides. -/
theorem contrib_two_sided (ws : List Wallet) (fs : List Fund) (uid : Nat)
    (p : Posting) (hact : p.isActive = true) (hu : (p.userId == uid) = true)
    (hwid : ∃ wi, p.walletId = some wi ∧ hasActiveWallet ws uid wi = true)
    (hfid : ∃ fi, p.fundId = some fi ∧ hasActiveFund fs uid fi = true) :
    wContrib ws uid p = p.amount ∧ fContrib fs uid p = p.amount := by
  obtain ⟨wi, hw1, hw2⟩ := hwid
  obtain ⟨fi, hf1, hf2⟩ := hfid
  unfold wContrib fContrib
  rw [hw1, hf1]
  constructor
  · rw [if_pos (by simp [hact, hu, hw2])]
  · rw [if_pos (by simp [hact, hu, hf2])]

/-- An inactive row contributes nothing to either side. -/
theorem contrib_inactive (ws : List Wallet) (fs : List Fund) (uid : Nat)
    (p : Posting) (h : p.isActive = false) :
    wContrib ws uid p = 0 ∧ fContrib fs uid p = 0 := by
  unfold wContrib fContrib
  constructor <;> rw [if_neg (by simp [h])]

/-- Every fund id in the create route's pull list is an active fund of the
user. -/
theorem pull_ids_active (l : Ledger) (uid : Nat) :
    ∀ pr ∈ (((l.funds.filter fun f => f.userId == uid && f.deletedAt == none).filter
        fun f => !f.isSavings).map fun f => (f.id, f.pullPercentage)).filter
        (fun pr => 0 < pr.2),
      hasActiveFund l.funds uid pr.1 = true := by
  intro pr hpr
  have h1 := List.mem_of_mem_filter hpr
  simp only [List.mem_map] at h1
  obtain ⟨f, hf, rfl⟩ := h1
  have hf1 := List.mem_of_mem_filter hf
  have hcond := List.of_mem_filter hf1
  have hfl : f ∈ l.funds := List.mem_of_mem_filter hf1
  simp only [Bool.and_eq_true] at hcond
  unfold hasActiveFund
  rw [List.any_eq_true]
  exact ⟨f, hfl, by simp [hcond.1, hcond.2]⟩

/-- The savings fund id picked by the create route is an active fund of the
user. -/
theorem savings_id_active (l : Ledger) (uid sid : Nat)
    (h : ((l.funds.filter fun f => f.userId == uid && f.deletedAt == none).find?
        (·.isSavings)).map (·.id) = some sid) :
    hasActiveFund l.funds uid sid = true := by
  cases hf : (l.funds.filter fun f => f.userId == uid && f.deletedAt == none).find?
      (·.isSavings) with
  | none =>
      rw [hf] at h
      exact Option.noConfusion h
  | some sf =>
      rw [hf] at h
      injection h with h
      subst h
      have hmem := List.mem_of_find?_eq_some hf
      have hcond := List.of_mem_filter hmem
      have hfl : sf ∈ l.funds := List.mem_of_mem_filter hmem
      simp only [Bool.and_eq_true] at hcond
      unfold hasActiveFund
      rw [List.any_eq_true]
      exact ⟨sf, hfl, by simp [hcond.1, hcond.2]⟩

theorem snd_mem_of_mem_enumFrom {α : Type _} :
    ∀ (xs : List α) (n : Nat) (p : Nat × α), p ∈ xs.enumFrom n → p.2 ∈ xs
  | [], _, _, h => absurd h (List.not_mem_nil _)
  | x :: xs, n, p, h => by
      rw [List.enumFrom_cons] at h
      rcases List.mem_cons.mp h with h | h
      · subst h
        exact List.mem_cons_self x xs
      · exact List.mem_cons_of_mem x (snd_mem_of_mem_enumFrom xs (n + 1) p h)

/-- Line parsing preserves the wallet and fund references. -/
theorem parseLines_fields (pend : Bool) :
    ∀ (ls : List LineInput) (ps : List ParsedLine),
      parseLines pend ls = .ok ps →
      ∀ pl ∈ ps, ∃ li ∈ ls, pl.walletId = li.walletId ∧ pl.fundId = li.fundId
  | [], ps, h, pl, hpl => by
      unfold parseLines at h
      injection h with h
      subst h
      exact absurd hpl (List.not_mem_nil _)
  | li :: rest, ps, h, pl, hpl => by
      unfold parseLines at h
      cases hp : parseLine pend li with
      | error e =>
          rw [hp] at h
          exact Except.noConfusion h
      | ok p =>
          rw [hp] at h
          cases hps : parseLines pend rest with
          | error e =>
              rw [hps] at h
              exact Except.noConfusion h
          | ok ps' =>
              rw [hps] at h
              simp only [] at h
              injection h with h
              subst h
              rcases List.mem_cons.mp hpl with h | h
              · subst h
                unfold parseLine at hp
                split at hp
                · exact Except.noConfusion hp
                · split at hp
                  · exact Except.noConfusion hp
                  · injection hp with hp
                    subst hp
                    exact ⟨li, List.mem_cons_self li rest, rfl, rfl⟩
              · obtain ⟨li', hli', hw, hf⟩ := parseLines_fields pend rest ps' hps pl h
                exact ⟨li', List.mem_cons_of_mem li hli', hw, hf⟩

theorem sum_map_sub {α : Type _} (f g : α → ℚ) :
    ∀ L : List α, (L.map fun a => f a - g a).sum = (L.map f).sum - (L.map g).sum
  | [] => by simp
  | a :: L => by
      simp only [List.map_cons, List.sum_cons, sum_map_sub f g L]
      ring

theorem sum_map_ite_filter {α : Type _} (f : α → ℚ) (q : α → Bool) :
    ∀ L : List α,
      (L.map fun a => if q a then f a else 0).sum = ((L.filter q).map f).sum
  | [] => by simp
  | a :: L => by
      simp only [List.map_cons, List.sum_cons, List.filter_cons]
      cases hq : q a with
      | true => simp [sum_map_ite_filter f q L]
      | false => simp [sum_map_ite_filter f q L]

theorem netSum_eq_sub (ws : List Wallet) (fs : List Fund) (uid : Nat)
    (L : List Posting) :
    netSum ws fs uid L =
      (L.map (wContrib ws uid)).sum - (L.map (fContrib fs uid)).sum := by
  simp only [netSum, rowNet]
  exact sum_map_sub _ _ L

theorem rowNet_other (ws : List Wallet) (fs : List Fund) (uid : Nat) (p : Posting)
    (h : (p.userId == uid) = false) : rowNet ws fs uid p = 0 := by
  simp [rowNet, wContrib, fContrib, h]

theorem netSum_cons (ws : List Wallet) (fs : List Fund) (uid : Nat) (p : Posting)
    (L : List Posting) :
    netSum ws fs uid (p :: L) = rowNet ws fs uid p + netSum ws fs uid L := by
  simp [netSum]

/-- Restricting an event filter to the user's own rows does not change the
net sum: foreign rows contribute nothing. -/
theorem netSum_filter_userId (ws : List Wallet) (fs : List Fund) (uid : Nat)
    (q : Posting → Bool) :
    ∀ L : List Posting,
      netSum ws fs uid (L.filter fun p => p.userId == uid && q p) =
        netSum ws fs uid (L.filter q)
  | [] => rfl
  | p :: L => by
      simp only [List.filter_cons]
      cases hu : (p.userId == uid) with
      | true =>
          cases hq : q p with
          | true =>
              rw [if_pos (by simp [hu, hq]), if_pos (by simp [hq]),
                netSum_cons, netSum_cons, netSum_filter_userId ws fs uid q L]
          | false =>
              rw [if_neg (by simp [hu, hq]), if_neg (by simp [hq])]
              exact netSum_filter_userId ws fs uid q L
      | false =>
          rw [if_neg (by simp [hu])]
          cases hq : q p with
          | true =>
              rw [if_pos (by simp [hq]), netSum_cons,
                rowNet_other ws fs uid p hu, netSum_filter_userId ws fs uid q L,
                zero_add]
          | false =>
              rw [if_neg (by simp [hq])]
              exact netSum_filter_userId ws fs uid q L

/-- Mapping an update that zeroes a measure exactly on the rows matched by
`cond` subtracts those rows' measures from the total. -/
theorem sum_map_update {α : Type _} (w : α → ℚ) (F : α → α) (cond : α → Bool)
    (hkeep : ∀ a, cond a = false → F a = a)
    (hdrop : ∀ a, cond a = true → w (F a) = 0) (L : List α) :
    (L.map (w ∘ F)).sum = (L.map w).sum - ((L.filter cond).map w).sum := by
  have h1 : L.map (w ∘ F) = L.map fun a => w a - (if cond a then w a else 0) := by
    apply List.map_congr_left
    intro a _
    simp only [Function.comp_apply]
    cases hc : cond a with
    | true =>
        rw [if_pos rfl, hdrop a hc]
        ring
    | false =>
        rw [if_neg (by simp), hkeep a hc]
        ring
  rw [h1, sum_map_sub, sum_map_ite_filter]

/-- CrossCheck is stable under one INSERT statement whose rows each
contribute equally to both sides. -/
theorem crossCheck_after_one_statement (l : Ledger) (uid : Nat)
    (s1 : List Posting) (hcc : CrossCheck l uid)
    (h1 : ∀ p ∈ s1, wContrib l.wallets uid p = fContrib l.funds uid p) :
    CrossCheck (applyStatement l s1) uid := by
  unfold CrossCheck at hcc ⊢
  rw [walletSide_applyStatement, fundSide_applyStatement,
    List.map_congr_left h1, hcc]

/-- CrossCheck is stable under two INSERT statements whose rows each
contribute equally to both sides. -/
theorem crossCheck_after_two_statements (l : Ledger) (uid : Nat)
    (s1 s2 : List Posting) (hcc : CrossCheck l uid)
    (h1 : ∀ p ∈ s1, wContrib l.wallets uid p = fContrib l.funds uid p)
    (h2 : ∀ p ∈ s2, wContrib l.wallets uid p = fContrib l.funds uid p) :
    CrossCheck (applyStatement (applyStatement l s1) s2) uid := by
  unfold CrossCheck at hcc ⊢
  rw [walletSide_applyStatement, fundSide_applyStatement,
    applyStatement_wallets, applyStatement_funds,
    walletSide_applyStatement, fundSide_applyStatement,
    List.map_congr_left h1, List.map_congr_left h2, hcc]

theorem walletSide_metaUpdate (l : Ledger) (uid eid : Nat) (t0 : Int)
    (d : Option String) (pend : Bool) :
    walletSide (metaUpdate l uid eid t0 d pend) uid = walletSide l uid := by
  unfold walletSide metaUpdate
  simp only [List.map_map]
  congr 1
  apply congrArg
  apply List.map_congr_left
  intro p _
  simp only [Function.comp_apply]
  repeat' split
  all_goals rfl

theorem fundSide_metaUpdate (l : Ledger) (uid eid : Nat) (t0 : Int)
    (d : Option String) (pend : Bool) :
    fundSide (metaUpdate l uid eid t0 d pend) uid = fundSide l uid := by
  unfold fundSide metaUpdate
  simp only [List.map_map]
  congr 1
  apply congrArg
  apply List.map_congr_left
  intro p _
  simp only [Function.comp_apply]
  repeat' split
  all_goals rfl

/-- The delete handler of the earlier revision preserves CrossCheck when
the deleted event nets to zero across the two sides. -/
theorem crossCheck_delete013 (l : Ledger) (uid eid : Nat) (now : Int)
    (hcc : CrossCheck l uid) (hnet : eventNet l uid eid = 0) :
    CrossCheck (deleteEvent013 l uid eid now).1 uid := by
  unfold deleteEvent013
  split
  · exact hcc
  · split
    · exact hcc
    · show CrossCheck
        { l with postings := l.postings.map fun p =>
            if p.userId == uid && (p.id == eid || p.parentId == some eid) then
              { p with deletedAt := some now }
            else p } uid
      unfold CrossCheck walletSide fundSide at hcc ⊢
      simp only [List.map_map]
      rw [sum_map_update (wContrib l.wallets uid) _
          (fun p => p.userId == uid && (p.id == eid || p.parentId == some eid))
          (fun a ha => by rw [if_neg (by simp [ha])])
          (fun a ha => by
            rw [if_pos ha]
            exact (contrib_inactive l.wallets l.funds uid _
              (by simp [Posting.isActive])).1),
        sum_map_update (fContrib l.funds uid) _
          (fun p => p.userId == uid && (p.id == eid || p.parentId == some eid))
          (fun a ha => by rw [if_neg (by simp [ha])])
          (fun a ha => by
            rw [if_pos ha]
            exact (contrib_inactive l.wallets l.funds uid _
              (by simp [Posting.isActive])).2)]
      have hz : ((l.postings.filter fun p =>
            p.userId == uid && (p.id == eid || p.parentId == some eid)).map
              (wContrib l.wallets uid)).sum =
          ((l.postings.filter fun p =>
            p.userId == uid && (p.id == eid || p.parentId == some eid)).map
              (fContrib l.funds uid)).sum := by
        have h1 := netSum_eq_sub l.wallets l.funds uid
          (l.postings.filter fun p =>
            p.userId == uid && (p.id == eid || p.parentId == some eid))
        rw [netSum_filter_userId l.wallets l.funds uid
          (fun p => p.id == eid || p.parentId == some eid) l.postings] at h1
        have h2 : netSum l.wallets l.funds uid
            (l.postings.filter fun p => p.id == eid || p.parentId == some eid) = 0 :=
          hnet
        rw [h2] at h1
        linarith
      rw [hz]
      linarith [hcc]

/-- A two-sided active row contributes equally to both sides. -/
theorem contrib_eq_two_sided (ws : List Wallet) (fs : List Fund) (uid : Nat)
    (p : Posting) (hact : p.isActive = true) (hu : (p.userId == uid) = true)
    (hwid : ∃ wi, p.walletId = some wi ∧ hasActiveWallet ws uid wi = true)
    (hfid : ∃ fi, p.fundId = some fi ∧ hasActiveFund fs uid fi = true) :
    wContrib ws uid p = fContrib fs uid p :=
  (contrib_two_sided ws fs uid p hact hu hwid hfid).1.trans
    (contrib_two_sided ws fs uid p hact hu hwid hfid).2.symm

/-- An inactive row contributes equally (nothing) to both sides. -/
theorem contrib_eq_inactive (ws : List Wallet) (fs : List Fund) (uid : Nat)
    (p : Posting) (h : p.isActive = false) :
    wContrib ws uid p = fContrib fs uid p :=
  (contrib_inactive ws fs uid p h).1.trans (contrib_inactive ws fs uid p h).2.symm

/-- A successful income create preserves CrossCheck: the parent row is
two-sided-inert and every allocation row is attributed to the validated
wallet and to an active fund. -/
theorem crossCheck_income_create (l : Ledger) (uid : Nat) (hcc : CrossCheck l uid)
    (req : CreateReq) (w : Nat) (T : ℚ) (l' : Ledger) (eid : Nat)
    (hbody : req.body = .income w T)
    (hok : createEvent l uid req = .ok (l', eid)) :
    CrossCheck l' uid := by
  unfold createEvent at hok
  cases hcs : createStatements l uid req with
  | error e =>
      rw [hcs] at hok
      simp [Except.map] at hok
  | ok sr =>
      rw [hcs] at hok
      simp only [Except.map] at hok
      injection hok with hok
      have h1 : sr.1.foldl applyStatement l = l' := congrArg Prod.fst hok
      clear hok
      unfold createStatements at hcs
      rw [hbody] at hcs
      simp only at hcs
      split at hcs
      · exact absurd hcs (by simp)
      · rename_i sid hsid
        split at hcs
        · exact absurd hcs (by simp)
        · split at hcs
          · exact absurd hcs (by simp)
          · split at hcs
            · exact absurd hcs (by simp)
            · rename_i hOwn
              split at hcs
              · exact absurd hcs (by simp)
              · injection hcs with hcs
                rw [← hcs] at h1
                simp only [List.foldl] at h1
                subst h1
                have hw' : ownedWallet l uid w = true := by simpa using hOwn
                apply crossCheck_after_two_statements l uid _ _ hcc
                · intro p hp
                  simp only [List.mem_singleton] at hp
                  subst hp
                  exact contrib_eq_inactive l.wallets l.funds uid _ rfl
                · intro p hp
                  rcases List.mem_append.mp hp with hpa | hps
                  · simp only [List.mem_map] at hpa
                    obtain ⟨ia, hia, rfl⟩ := hpa
                    have hia2 := snd_mem_of_mem_enumFrom _ 0 ia hia
                    have hia3 : ia.2 ∈ ((((l.funds.filter fun f =>
                        f.userId == uid && f.deletedAt == none).filter
                        fun f => !f.isSavings).map fun f =>
                        (f.id, f.pullPercentage)).filter
                        fun pr => 0 < pr.2).map fun pr =>
                        (pr.1, pr.2, T * pr.2 / 100) := hia2
                    obtain ⟨pr, hpr, hpr2⟩ := List.mem_map.mp hia3
                    have hfa : hasActiveFund l.funds uid ia.2.1 = true := by
                      rw [← hpr2]
                      exact pull_ids_active l uid pr hpr
                    refine contrib_eq_two_sided l.wallets l.funds uid _ ?_ ?_
                      ⟨w, ?_, hw'⟩ ⟨ia.2.1, ?_, hfa⟩
                    · rfl
                    · simp
                    · rfl
                    · rfl
                  · simp only [List.mem_singleton] at hps
                    subst hps
                    have hsa := savings_id_active l uid sid hsid
                    refine contrib_eq_two_sided l.wallets l.funds uid _ ?_ ?_
                      ⟨w, ?_, hw'⟩ ⟨sid, ?_, hsa⟩
                    · rfl
                    · simp
                    · rfl
                    · rfl

/-- A successful expense create whose input lines all carry both a wallet
and a fund reference preserves CrossCheck. -/
theorem crossCheck_expense_create (l : Ledger) (uid : Nat) (hcc : CrossCheck l uid)
    (req : CreateReq) (lines : List LineInput) (l' : Ledger) (eid : Nat)
    (hbody : req.body = .expense lines)
    (htwo : ∀ li ∈ lines, li.walletId.getD 0 ≠ 0 ∧ li.fundId.getD 0 ≠ 0)
    (hok : createEvent l uid req = .ok (l', eid)) :
    CrossCheck l' uid := by
  unfold createEvent at hok
  cases hcs : createStatements l uid req with
  | error e =>
      rw [hcs] at hok
      simp [Except.map] at hok
  | ok sr =>
      rw [hcs] at hok
      simp only [Except.map] at hok
      injection hok with hok
      have h1 : sr.1.foldl applyStatement l = l' := congrArg Prod.fst hok
      clear hok
      unfold createStatements at hcs
      rw [hbody] at hcs
      simp only at hcs
      split at hcs
      · exact absurd hcs (by simp)
      · split at hcs
        · exact absurd hcs (by simp)
        · rename_i parsed hparsed
          split at hcs
          · exact absurd hcs (by simp)
          · rename_i hWall
            split at hcs
            · exact absurd hcs (by simp)
            · rename_i hFund
              have hWall2 : (((parsed.filterMap (·.walletId)).filter
                  (· != 0)).dedup.all fun wid => ownedWallet l uid wid) = true := by
                simpa using hWall
              have hFund2 : (((parsed.filterMap (·.fundId)).filter
                  (· != 0)).dedup.all fun fid => ownedFund l uid fid) = true := by
                simpa using hFund
              have hplw : ∀ pl ∈ parsed, ∃ wi, pl.walletId = some wi ∧
                  hasActiveWallet l.wallets uid wi = true := by
                intro pl hpl
                obtain ⟨li, hli, hw, hf⟩ :=
                  parseLines_fields _ lines parsed hparsed pl hpl
                obtain ⟨hli1, _⟩ := htwo li hli
                cases hlw : li.walletId with
                | none =>
                    rw [hlw] at hli1
                    simp at hli1
                | some wi =>
                    rw [hlw] at hli1
                    simp only [Option.getD_some] at hli1
                    refine ⟨wi, by rw [hw, hlw], ?_⟩
                    have hmemw : wi ∈ ((parsed.filterMap (·.walletId)).filter
                        (· != 0)).dedup := by
                      apply List.mem_dedup.mpr
                      apply List.mem_filter.mpr
                      refine ⟨List.mem_filterMap.mpr ⟨pl, hpl, ?_⟩, ?_⟩
                      · rw [hw, hlw]
                      · simp [hli1]
                    exact List.all_eq_true.mp hWall2 wi hmemw
              have hplf : ∀ pl ∈ parsed, ∃ fi, pl.fundId = some fi ∧
                  hasActiveFund l.funds uid fi = true := by
                intro pl hpl
                obtain ⟨li, hli, hw, hf⟩ :=
                  parseLines_fields _ lines parsed hparsed pl hpl
                obtain ⟨_, hli2⟩ := htwo li hli
                cases hlf : li.fundId with
                | none =>
                    rw [hlf] at hli2
                    simp at hli2
                | some fi =>
                    rw [hlf] at hli2
                    simp only [Option.getD_some] at hli2
                    refine ⟨fi, by rw [hf, hlf], ?_⟩
                    have hmemf : fi ∈ ((parsed.filterMap (·.fundId)).filter
                        (· != 0)).dedup := by
                      apply List.mem_dedup.mpr
                      apply List.mem_filter.mpr
                      refine ⟨List.mem_filterMap.mpr ⟨pl, hpl, ?_⟩, ?_⟩
                      · rw [hf, hlf]
                      · simp [hli2]
                    exact List.all_eq_true.mp hFund2 fi hmemf
              split at hcs
              all_goals first
                | (rename_i line
                   injection hcs with hcs
                   rw [← hcs] at h1
                   simp only [List.foldl] at h1
                   subst h1
                   apply crossCheck_after_one_statement l uid _ hcc
                   intro p hp
                   simp only [List.mem_singleton] at hp
                   subst hp
                   obtain ⟨wi, hwi, hwia⟩ := hplw line (List.mem_cons_self line [])
                   obtain ⟨fi, hfi, hfia⟩ := hplf line (List.mem_cons_self line [])
                   refine contrib_eq_two_sided l.wallets l.funds uid _ ?_ ?_
                     ⟨wi, ?_, hwia⟩ ⟨fi, ?_, hfia⟩
                   · rfl
                   · simp
                   · exact hwi
                   · exact hfi)
                | (injection hcs with hcs
                   rw [← hcs] at h1
                   simp only [List.foldl] at h1
                   subst h1
                   apply crossCheck_after_two_statements l uid _ _ hcc
                   · intro p hp
                     simp only [List.mem_singleton] at hp
                     subst hp
                     exact contrib_eq_inactive l.wallets l.funds uid _ rfl
                   · intro p hp
                     simp only [List.mem_map] at hp
                     obtain ⟨il, hil, rfl⟩ := hp
                     have hil2 := snd_mem_of_mem_enumFrom _ 0 il hil
                     obtain ⟨wi, hwi, hwia⟩ := hplw il.2 hil2
                     obtain ⟨fi, hfi, hfia⟩ := hplf il.2 hil2
                     refine contrib_eq_two_sided l.wallets l.funds uid _ ?_ ?_
                       ⟨wi, ?_, hwia⟩ ⟨fi, ?_, hfia⟩
                     · rfl
                     · simp
                     · exact hwi
                     · exact hfi)

/-- **C1 (counterexample).** The cross-check invariant is *not* preserved
by every engine operation: the create route accepts one-sided expense
lines (wallet-only or fund-only), and a successful wallet-only expense
raises the wallet side without touching the fund side.  Starting from a
balanced ledger (`0 = 0`), creating a single wallet-only line of amount 5
succeeds and leaves `walletSide = 5 ≠ 0 = fundSide`. -/
theorem one_sided_expense_breaks_crosscheck :
    CrossCheck c1BaseLedger 1 ∧
    ((createEvent c1BaseLedger 1 c1OneSidedReq).toOption.getD
      (c1BaseLedger, 0)).2 = 3 ∧
    ¬ CrossCheck ((createEvent c1BaseLedger 1 c1OneSidedReq).toOption.getD
      (c1BaseLedger, 0)).1 1 := by
  refine ⟨?_, ?_, ?_⟩ <;>
    · iterate 8
        try first
          | rfl
          | (simp +decide [CrossCheck, walletSide, fundSide, wContrib, fContrib,
              Posting.isActive, hasActiveWallet, hasActiveFund, createEvent,
              createStatements, parseLines, parseLine, ownedWallet, ownedFund,
              applyStatement, Except.toOption, Except.map, allocateIncome,
              c1BaseLedger, c1OneSidedReq, List.filter_cons, List.filter_nil,
              beq_txStatus, beq_postingKind, beq_fundKind])
          | norm_num

/-- **C1 (amended).** The cross-check invariant `walletSide = fundSide`
(raw, un-clamped figures) is preserved by: every successful income create;
every successful expense create whose input lines each reference both a
wallet and a fund; every delete of an event whose rows net to zero across
the two sides; and every metadata-only edit.  (It is *not* preserved by
one-sided expense lines, which the route permits — see the
counterexample.) -/
theorem crosscheck_invariant_preservation (l : Ledger) (uid : Nat)
    (hcc : CrossCheck l uid) :
    (∀ req w T l' eid, req.body = .income w T →
      createEvent l uid req = .ok (l', eid) → CrossCheck l' uid) ∧
    (∀ req lines l' eid, req.body = .expense lines →
      (∀ li ∈ lines, li.walletId.getD 0 ≠ 0 ∧ li.fundId.getD 0 ≠ 0) →
      createEvent l uid req = .ok (l', eid) → CrossCheck l' uid) ∧
    (∀ eid now, eventNet l uid eid = 0 →
      CrossCheck (deleteEvent013 l uid eid now).1 uid) ∧
    (∀ eid (t0 : Int) d pend, CrossCheck (metaUpdate l uid eid t0 d pend) uid) :=
  ⟨fun req w T l' eid hb hok =>
      crossCheck_income_create l uid hcc req w T l' eid hb hok,
   fun req lines l' eid hb htwo hok =>
      crossCheck_expense_create l uid hcc req lines l' eid hb htwo hok,
   fun eid now hnet => crossCheck_delete013 l uid eid now hcc hnet,
   fun eid t0 d pend => by
      unfold CrossCheck
      rw [walletSide_metaUpdate, fundSide_metaUpdate]
      exact hcc⟩

/-- Witness: on the balanced base ledger, deleting a (zero-net) event id
and touching metadata both keep the cross-check. -/
theorem crosscheck_invariant_preservation_witness :
    CrossCheck c1BaseLedger 1 ∧
    CrossCheck (deleteEvent013 c1BaseLedger 1 7 0).1 1 ∧
    CrossCheck (metaUpdate c1BaseLedger 1 7 0 none true) 1 := by
  have hcc : CrossCheck c1BaseLedger 1 := by
    show walletSide c1BaseLedger 1 = fundSide c1BaseLedger 1
    iterate 4
      try first
        | rfl
        | (simp +decide [walletSide, fundSide, wContrib, fContrib, c1BaseLedger,
            List.filter_cons, List.filter_nil])
        | norm_num
  exact ⟨hcc,
    (crosscheck_invariant_preservation c1BaseLedger 1 hcc).2.2.1 7 0 rfl,
    (crosscheck_invariant_preservation c1BaseLedger 1 hcc).2.2.2 7 0 none true⟩

end ILedger
